import Mathlib

/-!
Verification development for the AgentMarket workflow execution engine
(`app/services/run_service.py`) and its companion static validator
(`app/services/workflow_service.py`).

The Python services are shallowly embedded: JSON-ish runtime values become
the inductive `AM.Val`, Python dicts become association lists with
insert-overwrites semantics, the DynamoDB-backed run store becomes an
explicit `AM.World` state threaded through the service functions, and the
external collaborators (agent-executor Lambda, LLM, agent directory) become
oracle functions bundled in `AM.Collaborators`.  Fallible Python code
(raising exceptions) is embedded with `Except String`.
-/

namespace AM

/-- Runtime values flowing through workflow context, step inputs and step
outputs (the embedding of Python's JSON-ish `Any`).  A numeric scalar is
carried together with its decimal rendering (the string `str()` /
`json.dumps` would print for it); the engine never computes with step-output
numbers, it only renders them into templates, so this rendering is the only
observable part of a number here. -/
inductive Val where
  | vStr (s : String)
  | vNum (render : String)
  | vBool (b : Bool)
  | vNull
  | vList (elems : List Val)
  | vDict (fields : List (String × Val))

/-- Lookup in an association list embedding a Python dict (`d.get(k)`). -/
def dictGet (d : List (String × Val)) (k : String) : Option Val :=
  (d.find? (fun kv => kv.1 = k)).map (fun kv => kv.2)

/-- Python dict item assignment `d[k] = v`: overwrite in place if the key is
present, otherwise append (preserving insertion order). -/
def dictInsert (d : List (String × Val)) (k : String) (v : Val) : List (String × Val) :=
  if (d.find? (fun kv => kv.1 = k)).isSome then
    d.map (fun kv => if kv.1 = k then (kv.1, v) else kv)
  else
    d ++ [(k, v)]

/-- Hexadecimal digit character for `n < 16` (lowercase, as Python emits). -/
def hexDigit (n : Nat) : Char :=
  if n < 10 then Char.ofNat (48 + n) else Char.ofNat (87 + n)

/-- Escaping of one character inside a JSON string literal, following
`json.dumps(..., ensure_ascii=False)`. -/
def jsonEscapeChar (c : Char) : String :=
  if c = Char.ofNat 34 then "\\\""
  else if c = Char.ofNat 92 then "\\\\"
  else if c = Char.ofNat 10 then "\\n"
  else if c = Char.ofNat 13 then "\\r"
  else if c = Char.ofNat 9 then "\\t"
  else if c = Char.ofNat 8 then "\\b"
  else if c = Char.ofNat 12 then "\\f"
  else if c.toNat < 32 then
    "\\u00" ++ String.mk [hexDigit (c.toNat / 16), hexDigit (c.toNat % 16)]
  else String.mk [c]

/-- JSON string literal for `s` (quotes included). -/
def jsonQuote (s : String) : String :=
  "\"" ++ String.join (s.data.map jsonEscapeChar) ++ "\""

mutual

/-- Embedding of Python `json.dumps(v, ensure_ascii=False)` with the default
separators `", "` and `": "` used by `RunService._resolve_template`. -/
def jsonDumps : Val → String
  | .vStr s => jsonQuote s
  | .vNum r => r
  | .vBool b => if b then "true" else "false"
  | .vNull => "null"
  | .vList xs => "[" ++ jsonDumpsElems xs ++ "]"
  | .vDict kvs => "\x7b" ++ jsonDumpsMembers kvs ++ "\x7d"

/-- Comma-separated JSON rendering of list elements. -/
def jsonDumpsElems : List Val → String
  | [] => ""
  | [v] => jsonDumps v
  | v :: vs => jsonDumps v ++ ", " ++ jsonDumpsElems vs

/-- Comma-separated JSON rendering of dict members. -/
def jsonDumpsMembers : List (String × Val) → String
  | [] => ""
  | [(k, v)] => jsonQuote k ++ ": " ++ jsonDumps v
  | (k, v) :: kvs => jsonQuote k ++ ": " ++ jsonDumps v ++ ", " ++ jsonDumpsMembers kvs

end

/-- Embedding of Python `str(v)` for the scalar values the template resolver
stringifies (`str` is only reached for non-dict, non-list values there; for
completeness composites fall back to their JSON rendering). -/
def pyStr : Val → String
  | .vStr s => s
  | .vNum r => r
  | .vBool b => if b then "True" else "False"
  | .vNull => "None"
  | v => jsonDumps v

/-- Rendering of a resolved reference value inside `_resolve_template`:
`json.dumps(val)` when the value is a dict or list, `str(val)` otherwise. -/
def renderTemplateVal : Val → String
  | .vDict kvs => jsonDumps (.vDict kvs)
  | .vList xs => jsonDumps (.vList xs)
  | v => pyStr v

/-- Field access on a step-output value: the source does
`step_outputs.get(stepId, \x7b\x7d).get(field, "")`, which assumes the
recorded output is a dict (the engine always stores dict outputs); a
non-dict value yields no field. -/
def valGet : Val → String → Option Val
  | .vDict kvs, k => dictGet kvs k
  | _, _ => none

/-- Embedding of Python `s.strip(chars)`: remove from both ends every
character belonging to `chars`. -/
def stripChars (s : String) (chars : List Char) : String :=
  String.mk (((s.data.dropWhile (fun c => chars.contains c)).reverse.dropWhile
    (fun c => chars.contains c)).reverse)

/-- The ASCII whitespace characters Python's bare `strip()` removes (its
additional Unicode whitespace is outside the modelled fragment). -/
def pyWhitespace : List Char := [' ', '\t', '\n', '\r', Char.ofNat 11, Char.ofNat 12]

/-- Embedding of Python `s.strip()`. -/
def pyStrip (s : String) : String := stripChars s pyWhitespace

/-- Splitting a character list at every occurrence of a separator,
embedding Python `s.split(sep)` for a one-character separator (adjacent
separators yield empty pieces, the empty string yields one empty piece). -/
def splitOnChar (sep : Char) : List Char → List (List Char)
  | [] => [[]]
  | c :: rest =>
    let r := splitOnChar sep rest
    if c = sep then [] :: r
    else
      match r with
      | h :: t => (c :: h) :: t
      | [] => [[c]]

/-- Embedding of Python `ref.split(".")`. -/
def pySplitDot (s : String) : List String := (splitOnChar '.' s.data).map String.mk

/-- Replacement applied to a single matched `\x7b\x7b...\x7d\x7d` marker,
embedding the `_replace` closure of `RunService._resolve_template`:
`context.<key>` references read the context (missing key renders as `""`),
`<stepId>.output.<field>` references read a completed step's output, and
anything else returns the whole match verbatim. -/
def templateRef (context : List (String × Val)) (stepOutputs : List (String × Val))
    (whole inner : String) : String :=
  let ref := pyStrip inner
  let parts := pySplitDot ref
  match parts with
  | p0 :: p1 :: rest =>
    if p0 = "context" then
      renderTemplateVal ((dictGet context p1).getD (Val.vStr ("")))
    else
      match rest with
      | p2 :: _ =>
        if p1 = "output" then
          renderTemplateVal ((valGet ((dictGet stepOutputs p0).getD (Val.vDict [])) p2).getD (Val.vStr ("")))
        else whole
      | [] => whole
  | _ => whole

/-- Dropping a matched run of characters never lengthens a list (used for
termination of the template scanner). -/
theorem length_dropWhile_le' {α : Type} (p : α → Bool) (l : List α) :
    (l.dropWhile p).length ≤ l.length := by
  induction l with
  | nil => simp
  | cons a t ih =>
    by_cases h : p a
    · rw [List.dropWhile_cons_of_pos h]
      exact Nat.le_trans ih (Nat.le_succ _)
    · rw [List.dropWhile_cons_of_neg h]

/-- Left-to-right single-pass scan embedding
`re.sub(r"\\\x7b\x7b([^\x7d]+)\\\x7d\x7d", _replace, template)`: a marker is
`\x7b\x7b`, one or more non-`\x7d` characters, then `\x7d\x7d`; on a match
the replacement text is emitted and scanning resumes after the match (the
replacement is not re-scanned); on no match the scan advances one
character. -/
def scanTemplate (repl : String → String → String) : List Char → List Char
  | '{' :: '{' :: rest =>
    match _hi : rest.takeWhile (fun c => c ≠ '}'), ha : rest.dropWhile (fun c => c ≠ '}') with
    | ic :: it, '}' :: '}' :: rest2 =>
      (repl (String.mk ('{' :: '{' :: ((ic :: it) ++ ['}', '}']))) (String.mk (ic :: it))).data
        ++ scanTemplate repl rest2
    | _, _ => '{' :: scanTemplate repl ('{' :: rest)
  | c :: rest => c :: scanTemplate repl rest
  | [] => []
termination_by l => l.length
decreasing_by
  · have h1 : (List.dropWhile (fun c => decide (c ≠ '}')) rest).length ≤ rest.length :=
      length_dropWhile_le' _ _
    rw [ha] at h1
    simp at h1 ⊢
    omega
  · simp
  · simp

/-- Embedding of `RunService._resolve_template`. -/
def resolveTemplate (template : String) (context : List (String × Val))
    (stepOutputs : List (String × Val)) : String :=
  String.mk (scanTemplate (templateRef context stepOutputs) template.data)

/-- Embedding of `RunService._resolve_context`: workflow context values are
literal strings except the two special tokens for the triggering user and
the run-start timestamp (the wall-clock ISO string is abstracted as the
`now` argument supplied by the caller). -/
def resolveContext (contextTemplate : List (String × String)) (triggeredBy now : String) :
    List (String × Val) :=
  contextTemplate.map (fun kv =>
    if kv.2 = "\x7b\x7bcurrent_user.id\x7d\x7d" then (kv.1, Val.vStr triggeredBy)
    else if kv.2 = "\x7b\x7bnow\x7d\x7d" then (kv.1, Val.vStr now)
    else (kv.1, Val.vStr kv.2))

/-- Lexicographic comparison of strings by code point, the order Python uses
for `str` comparisons. -/
def lexCmp : List Char → List Char → Ordering
  | [], [] => .eq
  | [], _ :: _ => .lt
  | _ :: _, [] => .gt
  | a :: as, b :: bs =>
    if a.toNat < b.toNat then .lt
    else if b.toNat < a.toNat then .gt
    else lexCmp as bs

/-- Significand and scale accumulated while reading decimal digits. -/
def digitsVal (cs : List Char) : Nat :=
  cs.foldl (fun acc c => acc * 10 + (c.toNat - 48)) 0

/-- An exact decimal value `num / 10 ^ exp`, the result of parsing a float
literal.  Comparisons on parsed operands are embedded exactly over these
rationals (the double rounding Python's `float` performs cannot change a
comparison between the short decimal literals modelled here). -/
structure Dec where
  num : Int
  exp : Nat
deriving DecidableEq, Repr

/-- Exponent suffix of a Python float literal: an optional sign and a
non-empty digit run; shifts the decimal point of the mantissa. -/
def pyFloatExp (mant : Dec) (t : List Char) : Option Dec :=
  let signAndDigits : Int × List Char :=
    match t with
    | '+' :: d => (1, d)
    | '-' :: d => (-1, d)
    | _ => (1, t)
  let ds := signAndDigits.2
  if ds.isEmpty ∨ ¬(ds.all Char.isDigit) then none
  else
    let e := digitsVal ds
    if signAndDigits.1 = 1 then some ⟨mant.num * (10 : Int) ^ e, mant.exp⟩
    else some ⟨mant.num, mant.exp + e⟩

/-- Embedding of Python `float(s)` restricted to plain decimal literals with
an optional sign, fraction and exponent, returned as an exact decimal (the
special spellings `inf`/`nan` and digit underscores are outside the
modelled fragment).  `none` models a raised `ValueError`. -/
def pyFloat? (s : String) : Option Dec :=
  let cs := s.data
  let signAndRest : Int × List Char :=
    match cs with
    | '+' :: t => (1, t)
    | '-' :: t => (-1, t)
    | _ => (1, cs)
  let sign := signAndRest.1
  let cs1 := signAndRest.2
  let ip := cs1.takeWhile Char.isDigit
  let cs2 := cs1.dropWhile Char.isDigit
  let fpAndRest : List Char × List Char :=
    match cs2 with
    | '.' :: t => (t.takeWhile Char.isDigit, t.dropWhile Char.isDigit)
    | _ => ([], cs2)
  let fp := fpAndRest.1
  let cs3 := fpAndRest.2
  if ip.isEmpty ∧ fp.isEmpty then none
  else
    let mant : Dec := ⟨sign * (digitsVal (ip ++ fp) : Int), fp.length⟩
    match cs3 with
    | [] => some mant
    | 'e' :: t => pyFloatExp mant t
    | 'E' :: t => pyFloatExp mant t
    | _ => none

/-- Index of the first occurrence of `needle` in `hay`, embedding Python's
substring search used by `op in expr` and `expr.split(op, 1)`. -/
def findSubstr (hay needle : List Char) : Option Nat :=
  if needle.isPrefixOf hay then some 0
  else
    match hay with
    | [] => none
    | _ :: t => (findSubstr t needle).map (· + 1)

/-- Numeric branch of `_eval_condition`: the comparison applied when both
operands parse as floats, evaluated exactly by cross-multiplying the two
decimals over their positive powers-of-ten denominators. -/
def applyOpNum (op : String) (l r : Dec) : Bool :=
  let a := l.num * (10 : Int) ^ r.exp
  let b := r.num * (10 : Int) ^ l.exp
  if op = ">=" then decide (a ≥ b)
  else if op = "<=" then decide (a ≤ b)
  else if op = "!=" then decide (a ≠ b)
  else if op = "==" then decide (a = b)
  else if op = ">" then decide (a > b)
  else decide (a < b)

/-- String branch of `_eval_condition`: Python string comparison by code
point on the quote-stripped operands. -/
def applyOpStr (op : String) (l r : String) : Bool :=
  if op = ">=" then decide (lexCmp l.data r.data ≠ .lt)
  else if op = "<=" then decide (lexCmp l.data r.data ≠ .gt)
  else if op = "!=" then decide (l ≠ r)
  else if op = "==" then decide (l = r)
  else if op = ">" then decide (lexCmp l.data r.data = .gt)
  else decide (lexCmp l.data r.data = .lt)

/-- Quote characters stripped from non-numeric operands
(`.strip("'\"")`). -/
def quoteChars : List Char := [Char.ofNat 39, Char.ofNat 34]

/-- One candidate operator of `_eval_condition`: if `op` occurs in `expr`,
split at its first occurrence, trim both sides, compare numerically when
both sides parse as floats and as quote-stripped strings otherwise. -/
def evalCondWithOp (expr : String) (op : String) : Option Bool :=
  match findSubstr expr.data op.data with
  | none => none
  | some i =>
    let leftS := pyStrip (String.mk (expr.data.take i))
    let rightS := pyStrip (String.mk (expr.data.drop (i + op.data.length)))
    match pyFloat? leftS, pyFloat? rightS with
    | some l, some r => some (applyOpNum op l r)
    | _, _ => some (applyOpStr op (stripChars leftS quoteChars) (stripChars rightS quoteChars))

/-- Operator precedence list of `_eval_condition`, in source order. -/
def condOps : List String := [">=", "<=", "!=", "==", ">", "<"]

/-- First operator of `ops` occurring in `expr` decides the result; an
expression containing none of them evaluates to `false`. -/
def evalCondAux (expr : String) : List String → Bool
  | [] => false
  | op :: rest =>
    match evalCondWithOp expr op with
    | some b => b
    | none => evalCondAux expr rest

/-- Embedding of `RunService._eval_condition`. -/
def evalCondition (expr : String) : Bool :=
  evalCondAux expr condOps

/-- One declared field of an agent's input or output schema
(`field.get("required", True)`, `field.get("default")`). -/
structure SchemaField where
  fieldName : String
  required : Bool := true
  default : Option Val := none

/-- The agent-directory record consumed by the engine and the validator. -/
structure Agent where
  agentId : String
  systemPrompt : String := ""
  inputSchema : List SchemaField := []
  outputSchema : List SchemaField := []

/-- One `missingFieldsResolution` entry `\x7bsource, value\x7d`; the engine
reads only its `value` template. -/
structure MissingRes where
  source : String := ""
  value : String
deriving DecidableEq, Repr

/-- The `condition` object of a LOGIC step (`\x7bif, then, else\x7d`). -/
structure CondSpec where
  ifE : String := ""
  thenS : Option String := none
  elseS : Option String := none
deriving DecidableEq, Repr

/-- The optional `outputSchema` object of an LLM step; `fieldName = none`
embeds a dict without that key. -/
structure LlmSchema where
  fieldName : Option String := none
  typ : Option String := none
deriving DecidableEq, Repr

/-- A workflow step as stored in the Workflow record.  The Python step is a
dict carrying the union of all per-type keys; absent keys are embedded as
`none` / `[]`, and `order` defaults to `0` (`step.get("order", 0)`). -/
structure Step where
  stepId : String
  type : String := ""
  order : Int := 0
  agentId : Option String := none
  agentVersion : Option String := none
  inputMapping : List (String × String) := []
  missingFieldsResolution : List (String × MissingRes) := []
  prompt : Option String := none
  outputSchema : Option LlmSchema := none
  logicType : Option String := none
  condition : Option CondSpec := none
  question : Option String := none
  outputField : Option String := none
deriving DecidableEq, Repr

/-- One entry of a Run's `stepResults` list.  `latencyMs` abstracts the
wall-clock `latency_ms` the engine stamps on every result. -/
structure StepResult where
  stepId : String
  type : String := ""
  status : String
  input : Val := .vDict []
  output : Val := .vDict []
  error : Option String := none
  latencyMs : Option Nat := none
  pendingQuestion : Option String := none
  outputField : Option String := none

/-- A WorkflowRun record as stored by `WorkflowRunDAO`; timestamps are
abstracted as ticks of the store clock. -/
structure Run where
  runId : String
  workflowId : String
  triggeredBy : String
  status : String
  stepResults : List StepResult := []
  startedAt : Nat := 0
  finishedAt : Option Nat := none
  pendingStepId : Option String := none
  pendingStepOrder : Option Int := none
  fatalError : Option String := none

/-- A Workflow record (the fields the run service reads). -/
structure Workflow where
  id : String
  authorId : String
  context : List (String × String) := []
  steps : List Step := []

/-- An HTTP client error raised by the service layer (`HTTPException`). -/
structure HTTPError where
  code : Nat
  detail : String
deriving DecidableEq, Repr

/-- The persistent state behind the Workflow and Run stores, with a logical
clock standing in for wall-clock timestamps and for fresh-id generation. -/
structure World where
  workflows : List (String × Workflow) := []
  runs : List ((String × String) × Run) := []
  clock : Nat := 0

/-- Lookup a workflow record (`WorkflowDAO.get`). -/
def wfGet (w : World) (workflowId : String) : Option Workflow :=
  (w.workflows.find? (fun kv => kv.1 = workflowId)).map (fun kv => kv.2)

/-- Lookup a run record (`WorkflowRunDAO.get`). -/
def runGet (w : World) (workflowId runId : String) : Option Run :=
  (w.runs.find? (fun kv => kv.1 = (workflowId, runId))).map (fun kv => kv.2)

/-- The optional extra fields passed to `WorkflowRunDAO.update_status`:
nothing, the pause bookkeeping pair, or a fatal-error note. -/
inductive Extra where
  | noExtra
  | pending (stepId : String) (order : Int)
  | fatal (msg : String)
deriving DecidableEq, Repr

/-- Field-by-field effect of `WorkflowRunDAO.update_status` on one run
record: set `status`, optionally replace `stepResults`, set `finishedAt`
to now when `finished`, and merge the extra fields. -/
def applyRunUpdate (clock : Nat) (status : String) (stepResults : Option (List StepResult))
    (finished : Bool) (extra : Extra) (r : Run) : Run :=
  let r1 := { r with status := status }
  let r2 :=
    match stepResults with
    | some rs => { r1 with stepResults := rs }
    | none => r1
  let r3 := if finished then { r2 with finishedAt := some clock } else r2
  match extra with
  | .noExtra => r3
  | .pending pid pord => { r3 with pendingStepId := some pid, pendingStepOrder := some pord }
  | .fatal m => { r3 with fatalError := some m }

/-- Embedding of `WorkflowRunDAO.update_status` as a store transition (the
write also advances the store clock). -/
def runUpdateStatus (w : World) (workflowId runId : String) (status : String)
    (stepResults : Option (List StepResult)) (finished : Bool) (extra : Extra) : World :=
  { w with
    runs := w.runs.map (fun kv =>
      if kv.1 = (workflowId, runId) then
        (kv.1, applyRunUpdate w.clock status stepResults finished extra kv.2)
      else kv),
    clock := w.clock + 1 }

/-- Embedding of `WorkflowRunDAO.create`: a fresh running run with empty
`stepResults` (the uuid4 run id is abstracted as a fresh id drawn from the
store clock). -/
def runCreate (w : World) (workflowId triggeredBy : String) : World × Run :=
  let runId := "run-" ++ toString w.clock
  let run : Run :=
    { runId := runId, workflowId := workflowId, triggeredBy := triggeredBy,
      status := "running", stepResults := [], startedAt := w.clock }
  ({ w with runs := w.runs ++ [((workflowId, runId), run)], clock := w.clock + 1 }, run)

/-- The reply of the LLM collaborator: the raw completion text together with
its JSON parse (`json.loads` of the raw text, `none` when it does not
parse), modelled at the collaborator boundary. -/
structure LlmReply where
  raw : String
  parsed : Option Val

/-- The external collaborators of the run engine, as oracles: the agent
directory, the agent-executor Lambda (raising on transport- or agent-level
failure) and the LLM completion call. -/
structure Collaborators where
  agentGet : String → String → Option Agent
  invokeAgentLambda : String → String → List (String × Val) → Except String Val
  llmCreate : String → Option String → Except String LlmReply

/-- Python's `x or default` on an optional string: `None` and the empty
string both fall back to the default. -/
def pyOr (o : Option String) (d : String) : String :=
  match o with
  | some s => if s = "" then d else s
  | none => d

/-- Embedding of `RunService._resolve_agent_input`: each declared input
field is resolved by the first applicable rule — explicit `inputMapping`
template (with the `\x7b\x7bdefault\x7d\x7d` sentinel requesting the
schema-declared default), `missingFieldsResolution` entry, schema-declared
default — and is left out of the payload when none applies.  The loop body
is the per-field resolution. -/
def resolveAgentField (step : Step) (context stepOutputs : List (String × Val))
    (result : List (String × Val)) (field : SchemaField) : List (String × Val) :=
  let fname := field.fieldName
  match (step.inputMapping.find? (fun kv => kv.1 = fname)).map (fun kv => kv.2) with
  | some tpl =>
    dictInsert result fname
      (if tpl = "\x7b\x7bdefault\x7d\x7d" then field.default.getD Val.vNull
       else Val.vStr (resolveTemplate tpl context stepOutputs))
  | none =>
    match (step.missingFieldsResolution.find? (fun kv => kv.1 = fname)).map (fun kv => kv.2) with
    | some res =>
      dictInsert result fname (Val.vStr (resolveTemplate res.value context stepOutputs))
    | none =>
      match field.default with
      | some d => dictInsert result fname d
      | none => result

/-- Embedding of `RunService._resolve_agent_input`: fold the per-field
resolution over the target agent's declared input schema. -/
def resolveAgentInput (step : Step) (agent : Agent) (context : List (String × Val))
    (stepOutputs : List (String × Val)) : List (String × Val) :=
  agent.inputSchema.foldl (resolveAgentField step context stepOutputs) []

/-- Embedding of a Python `None`-able step reference as a dict value. -/
def optStrVal : Option String → Val
  | some s => .vStr s
  | none => .vNull

/-- Embedding of `RunService._exec_logic` (a total function: `user_input`
pauses, `condition` evaluates and records the branch, anything else is the
`transform` pass-through). -/
def execLogic (step : Step) (context stepOutputs : List (String × Val)) : StepResult :=
  let logicType := step.logicType.getD ("condition")
  if logicType = "user_input" then
    { stepId := step.stepId, type := "LOGIC", status := "waiting_user_input",
      pendingQuestion := some (pyOr step.question ("Please provide input")),
      outputField := some (pyOr step.outputField ("answer")),
      input := .vDict [], output := .vDict [], error := none }
  else if logicType = "condition" then
    let condition := step.condition.getD {}
    let rawExpr := condition.ifE
    let resolvedExpr := resolveTemplate rawExpr context stepOutputs
    let branchTaken := evalCondition resolvedExpr
    { stepId := step.stepId, type := "LOGIC", status := "success",
      input := .vDict [("condition", .vStr rawExpr), ("resolved", .vStr resolvedExpr)],
      output := .vDict [("result", .vBool branchTaken),
                        ("branch", .vStr (if branchTaken then "then" else "else")),
                        ("nextStep", optStrVal (if branchTaken then condition.thenS else condition.elseS))],
      error := none }
  else
    { stepId := step.stepId, type := "LOGIC", status := "success",
      input := .vDict [], output := .vDict [], error := none }

/-- Embedding of `RunService._exec_agent` (the best-effort `callCount`
increment is a side effect on the agent directory with no observable
consequence for the run and is not modelled). -/
def execAgent (collab : Collaborators) (step : Step) (context stepOutputs : List (String × Val)) :
    Except String StepResult :=
  match step.agentId with
  | none => .error ("'agentId'")
  | some agentId =>
    let agentVersion := step.agentVersion.getD ("1.0.0")
    match collab.agentGet agentId agentVersion with
    | none => .error ("Agent '" ++ agentId ++ "' v" ++ agentVersion ++ " not found")
    | some agent =>
      let inputData := resolveAgentInput step agent context stepOutputs
      match collab.invokeAgentLambda agentId agentVersion inputData with
      | .error e => .error e
      | .ok output =>
        .ok { stepId := step.stepId, type := "AGENT", status := "success",
              input := .vDict inputData, output := output, error := none }

/-- Embedding of `RunService._exec_llm`: resolve the prompt template, add
the JSON system hint when the schema declares a field name, call the LLM,
and wrap or parse the reply. -/
def execLlm (collab : Collaborators) (step : Step) (context stepOutputs : List (String × Val)) :
    Except String StepResult :=
  let prompt := resolveTemplate (step.prompt.getD ("")) context stepOutputs
  let systemMsg : Option String :=
    match step.outputSchema with
    | some os =>
      match os.fieldName with
      | some fn =>
        some ("Respond with valid JSON: " ++ jsonDumps (.vDict [(fn, .vStr (os.typ.getD ("string")))]))
      | none => none
    | none => none
  match collab.llmCreate prompt systemMsg with
  | .error e => .error e
  | .ok reply =>
    let output : Val :=
      match step.outputSchema with
      | some _ => reply.parsed.getD (.vDict [("raw", .vStr reply.raw)])
      | none => .vDict [("content", .vStr reply.raw)]
    .ok { stepId := step.stepId, type := "LLM", status := "success",
          input := .vDict [("prompt", .vStr prompt)], output := output, error := none }

/-- Embedding of `RunService._execute_single_step`: dispatch on the step
type tag; an unknown tag raises. -/
def execSingleStep (collab : Collaborators) (step : Step)
    (context stepOutputs : List (String × Val)) : Except String StepResult :=
  if step.type = "AGENT" then execAgent collab step context stepOutputs
  else if step.type = "LLM" then execLlm collab step context stepOutputs
  else if step.type = "LOGIC" then .ok (execLogic step context stepOutputs)
  else .error ("Unknown step type: '" ++ step.type ++ "'")

/-- Observable actions of one engine pass: a step finishing execution, and
a persistence write of the run status together with the length of the
persisted `stepResults` list. -/
inductive Event where
  | stepExecuted (stepId : String)
  | persistWrite (status : String) (resultCount : Nat)
deriving DecidableEq, Repr

/-- The failed StepResult the engine synthesizes from a raised step fault
(`except Exception` branch of `_execute_steps`). -/
def failedStepResult (step : Step) (e : String) : StepResult :=
  { stepId := step.stepId, type := step.type, status := "failed",
    error := some e, input := .vDict [], output := .vDict [] }

/-- Embedding of the loop of `RunService._execute_steps`: run the steps in
order, convert raised faults into failed results, stop and persist on the
first failed or pausing step, persist the success once the list is
exhausted.  The returned event list records, in order, each step execution
and each persistence write of the pass. -/
def executeStepsFrom (collab : Collaborators) (workflowId runId : String)
    (context : List (String × Val)) :
    List Step → List (String × Val) → List StepResult → World → List Event →
    World × List Event
  | [], _, allResults, w, trace =>
    (runUpdateStatus w workflowId runId ("success") (some allResults) true .noExtra,
     trace ++ [.persistWrite ("success") allResults.length])
  | step :: rest, stepOutputs, allResults, w, trace =>
    let result0 :=
      match execSingleStep collab step context stepOutputs with
      | .ok r => r
      | .error e => failedStepResult step e
    let result := { result0 with latencyMs := some 0 }
    let allResults1 := allResults ++ [result]
    let trace1 := trace ++ [.stepExecuted step.stepId]
    if result.status = "failed" then
      (runUpdateStatus w workflowId runId ("failed") (some allResults1) true .noExtra,
       trace1 ++ [.persistWrite ("failed") allResults1.length])
    else if result.status = "waiting_user_input" then
      (runUpdateStatus w workflowId runId ("waiting_user_input") (some allResults1) false
        (.pending step.stepId step.order),
       trace1 ++ [.persistWrite ("waiting_user_input") allResults1.length])
    else
      executeStepsFrom collab workflowId runId context rest
        (dictInsert stepOutputs step.stepId result.output) allResults1 w trace1

/-- Comparison key of the engine's step sort (`s.get("order", 0)`). -/
def stepLE (a b : Step) : Prop := a.order ≤ b.order

instance : DecidableRel stepLE := fun a b => inferInstanceAs (Decidable (a.order ≤ b.order))

instance : IsTotal Step stepLE := ⟨fun a b => Int.le_total a.order b.order⟩

instance : IsTrans Step stepLE := ⟨fun _ _ _ => Int.le_trans⟩

/-- Embedding of `sorted(steps, key=lambda s: s.get("order", 0))` — a stable
ascending sort on the `order` key, here realized as insertion sort (any
stable sort computes the same list as Python's stable `sorted`). -/
def sortByOrder (l : List Step) : List Step := List.insertionSort stepLE l

/-- Embedding of `RunService.execute_run`: the full first pass over the
workflow's steps (a missing workflow returns silently; the outer fatal-error
handler is unreachable in this embedding because every modelled operation is
total). -/
def executeRun (collab : Collaborators) (w : World) (workflowId runId triggeredBy : String) :
    World × List Event :=
  match wfGet w workflowId with
  | none => (w, [])
  | some wf =>
    let steps := sortByOrder wf.steps
    let context := resolveContext wf.context triggeredBy (toString w.clock)
    executeStepsFrom collab workflowId runId context steps [] [] w []

/-- The step-outputs map rebuilt by `continue_run` — the dict comprehension
over the currently successful step results. -/
def successOutputs (stepResults : List StepResult) : List (String × Val) :=
  stepResults.foldl
    (fun d sr => if sr.status = "success" then dictInsert d sr.stepId sr.output else d) []

/-- Embedding of `RunService.continue_run`: re-derive the step outputs from
the persisted results and rerun the engine loop over the steps strictly
after the paused one. -/
def continueRun (collab : Collaborators) (w : World) (workflowId runId triggeredBy : String) :
    World × List Event :=
  match wfGet w workflowId with
  | none => (w, [])
  | some wf =>
    match runGet w workflowId runId with
    | none => (w, [])
    | some run =>
      let pendingStepOrder := run.pendingStepOrder.getD 0
      let stepResults := run.stepResults
      let stepOutputs := successOutputs stepResults
      let remaining := sortByOrder (wf.steps.filter (fun s => pendingStepOrder < s.order))
      let context := resolveContext wf.context triggeredBy (toString w.clock)
      executeStepsFrom collab workflowId runId context remaining stepOutputs stepResults w []

/-- The in-place rewrite `resume_run` applies to the paused step's result:
first matching `stepId` wins, the rest of the list is untouched. -/
def injectAnswer (pendingStepId : String) (answer : Val) : List StepResult → List StepResult
  | [] => []
  | sr :: rest =>
    if sr.stepId = pendingStepId then
      { sr with status := "success",
                output := .vDict [(pyOr sr.outputField ("answer"), answer)],
                pendingQuestion := none } :: rest
    else sr :: injectAnswer pendingStepId answer rest

/-- Embedding of `RunService.resume_run`: reject unless the run exists, is
owned by the requester and is paused; otherwise inject the answer into the
paused step's result and flip the run back to running (pause bookkeeping
fields are left in the store for `continue_run`). -/
def resumeRun (w : World) (workflowId runId requesterId : String) (answer : Val) :
    World × Except HTTPError (Option Run) :=
  match wfGet w workflowId with
  | none => (w, .error ⟨404, "Workflow '" ++ workflowId ++ "' not found"⟩)
  | some wf =>
    if wf.authorId ≠ requesterId then
      (w, .error ⟨403, "You do not own this workflow"⟩)
    else
      match runGet w workflowId runId with
      | none => (w, .error ⟨404, "Run '" ++ runId ++ "' not found"⟩)
      | some run =>
        if run.status ≠ "waiting_user_input" then
          (w, .error ⟨400, "Run is not paused (current status: " ++ run.status ++ ")"⟩)
        else
          let pendingStepId := run.pendingStepId.getD ("")
          let stepResults := injectAnswer pendingStepId answer run.stepResults
          let w1 := runUpdateStatus w workflowId runId ("running") (some stepResults) false .noExtra
          (w1, .ok (runGet w1 workflowId runId))

/-- The orchestrator step limit (`Settings.orchestrator_max_steps`). -/
def orchestratorMaxSteps : Nat := 10

/-- Embedding of `RunService.trigger_run`: validate existence, ownership and
the step-count bounds, then create the run record. -/
def triggerRun (w : World) (workflowId triggeredBy : String) :
    World × Except HTTPError Run :=
  match wfGet w workflowId with
  | none => (w, .error ⟨404, "Workflow '" ++ workflowId ++ "' not found"⟩)
  | some wf =>
    if wf.authorId ≠ triggeredBy then
      (w, .error ⟨403, "You do not own this workflow"⟩)
    else if wf.steps.isEmpty then
      (w, .error ⟨400, "Workflow has no steps to execute"⟩)
    else if orchestratorMaxSteps < wf.steps.length then
      (w, .error ⟨400, "Workflow exceeds the maximum step limit (10)"⟩)
    else
      let created := runCreate w workflowId triggeredBy
      (created.1, .ok created.2)

/-- One issue reported by the validation analyzer. -/
structure Issue where
  stepId : String
  field : String
  issue : String
  suggestions : List String
deriving DecidableEq, Repr

/-- Stable insertion for lexicographic string sorting. -/
def insertStr (s : String) : List String → List String
  | [] => [s]
  | t :: ts => if lexCmp t.data s.data = .lt then t :: insertStr s ts else s :: t :: ts

/-- Embedding of Python `sorted` on strings (code-point lexicographic). -/
def sortStrings (l : List String) : List String := l.foldr insertStr []

/-- The suggestion list built by `_validate_agent_step` for one
unresolvable field: every context key (sorted, prefixed `context.`), then
the `fixed_value` fallback, truncated to the first 3 entries
(`suggestions[:3]`). -/
def buildSuggestions (contextKeys : List String) : List String :=
  (((sortStrings contextKeys).map (fun k => "context." ++ k)) ++ ["fixed_value"]).take 3

/-- The per-field body of the loop in `_validate_agent_step`: `none` when
the field is optional, defaulted or satisfiable, otherwise the emitted
issue. -/
def fieldIssue (step : Step) (stepId : String) (contextKeys availableFields : List String)
    (field : SchemaField) : Option Issue :=
  if field.required = false then none
  else if field.default.isSome then none
  else
    let fieldName := field.fieldName
    if (step.inputMapping.find? (fun kv => kv.1 = fieldName)).isSome then none
    else if (step.missingFieldsResolution.find? (fun kv => kv.1 = fieldName)).isSome then none
    else if availableFields.contains fieldName then none
    else
      some { stepId := stepId, field := fieldName,
             issue := "Required field cannot be resolved from upstream",
             suggestions := buildSuggestions contextKeys }

/-- Embedding of `WorkflowService._validate_agent_step`: returns the grown
issue list and the grown available-field set (the Python set of available
fields is embedded as a list with membership semantics). -/
def validateAgentStep (agentDir : String → String → Option Agent) (step : Step)
    (stepId : String) (contextKeys availableFields : List String) (issues : List Issue) :
    List Issue × List String :=
  let agentId := step.agentId.getD ("")
  let agentVersion := step.agentVersion.getD ("1.0.0")
  match agentDir agentId agentVersion with
  | none =>
    (issues ++ [{ stepId := stepId, field := "agentId",
                  issue := "Agent '" ++ agentId ++ "' not found", suggestions := [] }],
     availableFields)
  | some agent =>
    (issues ++ agent.inputSchema.filterMap (fieldIssue step stepId contextKeys availableFields),
     availableFields ++ agent.outputSchema.map (fun f => f.fieldName))

/-- The persistence discipline claimed for the engine pass: no step
execution directly follows another with no persistence write in between. -/
def persistedAfterEveryStep : List Event → Bool
  | .stepExecuted _ :: .stepExecuted _ :: _ => false
  | _ :: rest => persistedAfterEveryStep rest
  | [] => true

/-- Specification-side restatement of the resume rewrite (§4.2 Resume of
the spec): locate the StepResult whose `stepId` equals the pending step id
and rewrite that one entry in place. -/
def specRewriteResults (results : List StepResult) (pendingStepId : String) (answer : Val) :
    List StepResult :=
  match results.findIdx? (fun sr => sr.stepId = pendingStepId) with
  | none => results
  | some i =>
    match results[i]? with
    | none => results
    | some sr =>
      results.set i
        { sr with status := "success",
                  output := .vDict [(pyOr sr.outputField ("answer"), answer)],
                  pendingQuestion := none }

/-- Collaborator oracle with no reachable external service, for scenarios
exercising only LOGIC steps. -/
def stubCollab : Collaborators :=
  { agentGet := fun _ _ => none,
    invokeAgentLambda := fun _ _ _ => .error ("unavailable"),
    llmCreate := fun _ _ => .error ("unavailable") }

/-- Concrete two-step workflow of `transform` LOGIC steps (both succeed). -/
def wfTransform2 : Workflow :=
  { id := "wf1", authorId := "u1",
    steps := [{ stepId := "s1", type := "LOGIC", order := 1, logicType := some ("transform") },
              { stepId := "s2", type := "LOGIC", order := 2, logicType := some ("transform") }] }

/-- Store holding `wfTransform2` and a fresh running run for it. -/
def worldTransform2 : World :=
  { workflows := [("wf1", wfTransform2)],
    runs := [(("wf1", "r1"),
      { runId := "r1", workflowId := "wf1", triggeredBy := "u1", status := "running" })] }

/-- Collaborator oracle for the failing-second-call scenario: agents `a1`
and `a2` exist at version 1.0.0; the executor Lambda succeeds for `a1` and
raises for `a2`. -/
def failing2ndCollab : Collaborators :=
  { agentGet := fun aid v =>
      if v = "1.0.0" ∧ (aid = "a1" ∨ aid = "a2") then some { agentId := aid } else none,
    invokeAgentLambda := fun aid _ _ =>
      if aid = "a1" then .ok (.vDict [("r", .vStr ("ok"))]) else .error ("Agent error: boom"),
    llmCreate := fun _ _ => .error ("unavailable") }

/-- Concrete three-step workflow whose second AGENT step's external call
raises under `failing2ndCollab`. -/
def wfTwoAgents : Workflow :=
  { id := "wf6", authorId := "u1",
    steps := [{ stepId := "s1", type := "AGENT", order := 1, agentId := some ("a1") },
              { stepId := "s2", type := "AGENT", order := 2, agentId := some ("a2") },
              { stepId := "s3", type := "LOGIC", order := 3, logicType := some ("transform") }] }

/-- Store holding `wfTwoAgents` and a fresh running run for it. -/
def worldTwoAgents : World :=
  { workflows := [("wf6", wfTwoAgents)],
    runs := [(("wf6", "r1"),
      { runId := "r1", workflowId := "wf6", triggeredBy := "u1", status := "running" })] }

/-- Concrete pause/resume workflow: an AGENT step, a `user_input` LOGIC
step writing to field `approved`, then a condition step reading it. -/
def wfPause : Workflow :=
  { id := "wf7", authorId := "u1", context := [("topic", "x")],
    steps := [{ stepId := "s1", type := "AGENT", order := 1, agentId := some ("a1") },
              { stepId := "s2", type := "LOGIC", order := 2, logicType := some ("user_input"),
                outputField := some ("approved") },
              { stepId := "s3", type := "LOGIC", order := 3, logicType := some ("condition"),
                condition := some { ifE := "\x7b\x7bs2.output.approved\x7d\x7d == yes" } }] }

/-- Store for `wfPause` in the paused state `resume_run` expects: step 1
succeeded, step 2 is waiting for user input. -/
def worldPaused : World :=
  { workflows := [("wf7", wfPause)],
    runs := [(("wf7", "r1"),
      { runId := "r1", workflowId := "wf7", triggeredBy := "u1",
        status := "waiting_user_input",
        stepResults :=
          [{ stepId := "s1", type := "AGENT", status := "success",
             output := .vDict [("r", .vStr ("ok"))], latencyMs := some 0 },
           { stepId := "s2", type := "LOGIC", status := "waiting_user_input",
             pendingQuestion := some ("Please provide input"),
             outputField := some ("approved"), latencyMs := some 0 }],
        pendingStepId := some ("s2"), pendingStepOrder := some 2 })] }

/-- Store holding a workflow with no steps, for the trigger bound check. -/
def worldNoSteps : World :=
  { workflows := [("wfe", { id := "wfe", authorId := "u1", steps := [] })] }

/-- An agent whose single input field `x` is required with no default, and
whose output declares field `y`. -/
def agentReqX : Agent :=
  { agentId := "ax",
    inputSchema := [{ fieldName := "x" }],
    outputSchema := [{ fieldName := "y" }] }

/-- A bare AGENT step referencing `agentReqX` with no mappings. -/
def stepBare : Step :=
  { stepId := "sv", type := "AGENT", order := 1, agentId := some ("ax") }

/-- Agent directory holding only `agentReqX` at version 1.0.0. -/
def agentDirReqX : String → String → Option Agent :=
  fun aid v => if aid = "ax" ∧ v = "1.0.0" then some agentReqX else none

/-- Replacing the value stored under key `k` commutes with looking `k`
up. -/
theorem find?_map_replaceKey {κ χ : Type} [DecidableEq κ] (d : List (κ × χ)) (k : κ)
    (f : χ → χ) :
    ((d.map (fun kv => if kv.1 = k then (kv.1, f kv.2) else kv)).find? (fun kv => kv.1 = k))
      = (d.find? (fun kv => kv.1 = k)).map (fun kv => (kv.1, f kv.2)) := by
  induction d with
  | nil => rfl
  | cons kv t ih => by_cases h : kv.1 = k <;> simp [h, ih]

/-- A run-store write is only visible through `runGet` as the field update
it performs on the addressed record. -/
theorem runGet_update (w : World) (wid rid st : String)
    (rs : Option (List StepResult)) (fin : Bool) (ex : Extra) :
    runGet (runUpdateStatus w wid rid st rs fin ex) wid rid
      = (runGet w wid rid).map (applyRunUpdate w.clock st rs fin ex) := by
  unfold runGet runUpdateStatus
  rw [show (fun kv : (String × String) × Run =>
        if kv.1 = (wid, rid) then (kv.1, applyRunUpdate w.clock st rs fin ex kv.2) else kv)
      = (fun kv => if kv.1 = (wid, rid) then
          (kv.1, applyRunUpdate w.clock st rs fin ex kv.2) else kv) from rfl]
  rw [find?_map_replaceKey]
  cases w.runs.find? (fun kv => kv.1 = (wid, rid)) <;> simp

/-- Run-store writes do not touch the workflow store. -/
theorem wfGet_update (w : World) (wid rid st : String)
    (rs : Option (List StepResult)) (fin : Bool) (ex : Extra) (wid' : String) :
    wfGet (runUpdateStatus w wid rid st rs fin ex) wid' = wfGet w wid' := rfl

/-- The in-place loop of `resume_run` computes the located-and-rewritten
list described by the spec's resume step. -/
theorem injectAnswer_eq_spec (pid : String) (ans : Val) (results : List StepResult) :
    injectAnswer pid ans results = specRewriteResults results pid ans := by
  induction results with
  | nil => rfl
  | cons sr rest ih =>
    by_cases h : sr.stepId = pid
    · simp [injectAnswer, specRewriteResults, h]
    · simp only [injectAnswer, h, if_neg, specRewriteResults, List.findIdx?_cons,
        decide_eq_true_eq, List.findIdx?_start_succ]
      rw [ih]
      unfold specRewriteResults
      cases hidx : rest.findIdx? (fun sr => sr.stepId = pid) with
      | none => simp [hidx]
      | some i => cases hget : rest[i]? with
        | none => simp [hidx, hget]
        | some sr' => simp [hidx, hget]

/-- Shape of the events an engine pass emits: some prefix of the given
steps is executed, in order, followed by exactly one persistence write
whose stepResults length counts every executed step on top of the
pre-existing results.  In particular no persistence write separates two
consecutive step executions. -/
theorem executeStepsFrom_trace (collab : Collaborators) (wid rid : String)
    (ctx : List (String × Val)) :
    ∀ (steps : List Step) (so : List (String × Val)) (res : List StepResult)
      (w : World) (tr : List Event),
      ∃ k st, k ≤ steps.length ∧
        (executeStepsFrom collab wid rid ctx steps so res w tr).2
          = tr ++ (steps.take k).map (fun s => Event.stepExecuted s.stepId)
               ++ [Event.persistWrite st (res.length + k)] := by
  intro steps
  induction steps with
  | nil =>
    intro so res w tr
    exact ⟨0, "success", by simp [executeStepsFrom]⟩
  | cons step rest ih =>
    intro so res w tr
    simp only [executeStepsFrom]
    by_cases hf :
        ({ (match execSingleStep collab step ctx so with
            | .ok r => r
            | .error e => failedStepResult step e) with latencyMs := some 0} : StepResult).status
          = "failed"
    · refine ⟨1, "failed", by simp, ?_⟩
      rw [if_pos hf]
      simp [List.append_assoc]
    · rw [if_neg hf]
      by_cases hw :
          ({ (match execSingleStep collab step ctx so with
              | .ok r => r
              | .error e => failedStepResult step e) with latencyMs := some 0} : StepResult).status
            = "waiting_user_input"
      · refine ⟨1, "waiting_user_input", by simp, ?_⟩
        rw [if_pos hw]
        simp [List.append_assoc]
      · rw [if_neg hw]
        obtain ⟨k, st, hk, htr⟩ := ih _ _ _ _
        refine ⟨k + 1, st, by simpa using Nat.succ_le_succ hk, ?_⟩
        rw [htr]
        simp [List.take_succ_cons, List.append_assoc]
        omega

/-- Inserting under a key makes lookup of that key return the inserted
value. -/
theorem dictGet_insert_self (d : List (String × Val)) (k : String) (v : Val) :
    dictGet (dictInsert d k v) k = some v := by
  unfold dictGet dictInsert
  by_cases hf : (d.find? (fun kv => kv.1 = k)).isSome
  · rw [if_pos hf]
    rw [find?_map_replaceKey d k (fun _ => v)]
    obtain ⟨kv0, hkv⟩ := Option.isSome_iff_exists.mp hf
    simp [hkv]
  · rw [if_neg hf]
    rw [List.find?_append]
    rw [Option.not_isSome_iff_eq_none.mp hf]
    simp

/-- Replacing the value under one key does not affect a search for a
different key. -/
theorem find?_map_replaceKey_ne {κ χ : Type} [DecidableEq κ] (d : List (κ × χ)) (k k' : κ)
    (f : χ → χ) (h : k ≠ k') :
    ((d.map (fun kv => if kv.1 = k' then (kv.1, f kv.2) else kv)).find? (fun kv => kv.1 = k))
      = d.find? (fun kv => kv.1 = k) := by
  induction d with
  | nil => rfl
  | cons kv t ih =>
    rw [List.map_cons]
    by_cases hk' : kv.1 = k'
    · have hk : ¬(kv.1 = k) := by
        rw [hk']
        exact fun hh => h hh.symm
      rw [if_pos hk']
      rw [List.find?_cons_of_neg _ (by simpa using hk)]
      rw [List.find?_cons_of_neg _ (by simpa using hk)]
      exact ih
    · rw [if_neg hk']
      by_cases hk : kv.1 = k
      · rw [List.find?_cons_of_pos _ (by simpa using hk)]
        rw [List.find?_cons_of_pos _ (by simpa using hk)]
      · rw [List.find?_cons_of_neg _ (by simpa using hk)]
        rw [List.find?_cons_of_neg _ (by simpa using hk)]
        exact ih

/-- Inserting under a different key leaves lookup unchanged. -/
theorem dictGet_insert_ne (d : List (String × Val)) (k k' : String) (v : Val)
    (h : k ≠ k') : dictGet (dictInsert d k' v) k = dictGet d k := by
  unfold dictGet dictInsert
  by_cases hf : (d.find? (fun kv => kv.1 = k')).isSome
  · rw [if_pos hf]
    rw [find?_map_replaceKey_ne d k k' (fun _ => v) h]
  · rw [if_neg hf]
    rw [List.find?_append]
    have hne : ¬(((k', v) : String × Val).1 = k) := fun hh => h hh.symm
    rw [List.find?_cons_of_neg _ (by simp only [decide_eq_true_eq]; exact hne), List.find?_nil]
    cases hd : d.find? (fun kv => kv.1 = k) <;> simp [hd]

/-- The per-field resolution touches no key but its own field name. -/
theorem resolveAgentField_other (step : Step) (ctx so : List (String × Val))
    (d : List (String × Val)) (f : SchemaField) (name : String)
    (h : f.fieldName ≠ name) :
    dictGet (resolveAgentField step ctx so d f) name = dictGet d name := by
  unfold resolveAgentField
  have hne : name ≠ f.fieldName := fun hh => h hh.symm
  cases hm : (step.inputMapping.find? (fun kv => kv.1 = f.fieldName)).map (fun kv => kv.2) with
  | some tpl => simp [hm, dictGet_insert_ne _ _ _ _ hne]
  | none =>
    cases hr : (step.missingFieldsResolution.find? (fun kv => kv.1 = f.fieldName)).map
        (fun kv => kv.2) with
    | some res => simp [hm, hr, dictGet_insert_ne _ _ _ _ hne]
    | none =>
      cases hd : f.default with
      | some dv => simp [hm, hr, hd, dictGet_insert_ne _ _ _ _ hne]
      | none => simp [hm, hr, hd]

/-- Folding the per-field resolution over fields with other names leaves a
key's lookup unchanged. -/
theorem agentInput_fold_other (step : Step) (ctx so : List (String × Val)) (name : String) :
    ∀ (fields : List SchemaField) (d : List (String × Val)),
      (∀ f ∈ fields, f.fieldName ≠ name) →
      dictGet (fields.foldl (resolveAgentField step ctx so) d) name = dictGet d name := by
  intro fields
  induction fields with
  | nil => intro d _; rfl
  | cons f rest ih =>
    intro d hall
    rw [List.foldl_cons]
    rw [ih _ (fun g hg => hall g (List.mem_cons_of_mem f hg))]
    exact resolveAgentField_other step ctx so d f name (hall f (List.mem_cons_self f rest))

/-- Value the per-field resolution leaves under the field's own name,
assuming the name was not yet bound: the first applicable of the three
rules, or the unchanged (absent) binding. -/
theorem resolveAgentField_self (step : Step) (ctx so : List (String × Val))
    (d : List (String × Val)) (f : SchemaField)
    (hd : dictGet d f.fieldName = none) :
    dictGet (resolveAgentField step ctx so d f) f.fieldName
      = (match (step.inputMapping.find? (fun kv => kv.1 = f.fieldName)).map (fun kv => kv.2) with
         | some tpl =>
           some (if tpl = "\x7b\x7bdefault\x7d\x7d" then f.default.getD Val.vNull
                 else Val.vStr (resolveTemplate tpl ctx so))
         | none =>
           match (step.missingFieldsResolution.find? (fun kv => kv.1 = f.fieldName)).map
               (fun kv => kv.2) with
           | some res => some (Val.vStr (resolveTemplate res.value ctx so))
           | none => f.default) := by
  unfold resolveAgentField
  cases hm : (step.inputMapping.find? (fun kv => kv.1 = f.fieldName)).map (fun kv => kv.2) with
  | some tpl => simp [hm, dictGet_insert_self]
  | none =>
    cases hr : (step.missingFieldsResolution.find? (fun kv => kv.1 = f.fieldName)).map
        (fun kv => kv.2) with
    | some res => simp [hm, hr, dictGet_insert_self]
    | none =>
      cases hdf : f.default with
      | some dv => simp [hm, hr, hdf, dictGet_insert_self]
      | none => simp [hm, hr, hdf, hd]

/-- Folding the dict comprehension of `continue_run` from an accumulator
whose keys avoid every upcoming result id appends exactly the
`(stepId, output)` pairs of the successful results, in order. -/
theorem successOutputs_fold (results : List StepResult) :
    ∀ d : List (String × Val),
      (∀ sr ∈ results, d.find? (fun kv => kv.1 = sr.stepId) = none) →
      (results.map (fun sr => sr.stepId)).Nodup →
      results.foldl
          (fun d sr => if sr.status = "success" then dictInsert d sr.stepId sr.output else d) d
        = d ++ results.filterMap
            (fun sr => if sr.status = "success" then some (sr.stepId, sr.output) else none) := by
  induction results with
  | nil => intro d _ _; simp
  | cons sr rest ih =>
    intro d hdisj hnodup
    rw [List.foldl_cons]
    have hnd : sr.stepId ∉ rest.map (fun sr => sr.stepId) ∧
        (rest.map (fun sr => sr.stepId)).Nodup := by
      simpa using hnodup
    by_cases hs : sr.status = "success"
    · rw [if_pos hs]
      have hins : dictInsert d sr.stepId sr.output = d ++ [(sr.stepId, sr.output)] := by
        unfold dictInsert
        rw [hdisj sr (List.mem_cons_self sr rest)]
        simp
      rw [hins]
      rw [ih (d ++ [(sr.stepId, sr.output)]) ?_ hnd.2]
      · simp [hs, List.append_assoc]
      · intro sr' hsr'
        rw [List.find?_append, hdisj sr' (List.mem_cons_of_mem sr hsr')]
        have hne : ¬(((sr.stepId, sr.output) : String × Val).1 = sr'.stepId) := by
          intro hh
          refine hnd.1 ?_
          rw [show ((sr.stepId, sr.output) : String × Val).1 = sr.stepId from rfl] at hh
          rw [hh]
          exact List.mem_map_of_mem (fun sr => sr.stepId) hsr'
        rw [Option.none_or, List.find?_cons_of_neg _ (by simpa using hne), List.find?_nil]
    · rw [if_neg hs]
      rw [ih d (fun sr' hsr' => hdisj sr' (List.mem_cons_of_mem sr hsr')) hnd.2]
      simp [hs]

/-- A run of non-brace characters is taken whole by the marker scan. -/
theorem takeWhile_marker (inner rest : List Char) (h : ∀ c ∈ inner, c ≠ '}') :
    (inner ++ '}' :: rest).takeWhile (fun c => c ≠ '}') = inner := by
  induction inner with
  | nil => simp
  | cons c cs ih =>
    have hc : decide (c ≠ '}') = true := by
      simp only [decide_eq_true_eq]
      exact h c (List.mem_cons_self c cs)
    rw [List.cons_append]
    simp only [List.takeWhile_cons, hc, if_true]
    rw [ih (fun x hx => h x (List.mem_cons_of_mem c hx))]

/-- The marker scan stops exactly at the first closing brace. -/
theorem dropWhile_marker (inner rest : List Char) (h : ∀ c ∈ inner, c ≠ '}') :
    (inner ++ '}' :: rest).dropWhile (fun c => c ≠ '}') = '}' :: rest := by
  induction inner with
  | nil => simp
  | cons c cs ih =>
    have hc : decide (c ≠ '}') = true := by
      simp only [decide_eq_true_eq]
      exact h c (List.mem_cons_self c cs)
    rw [List.cons_append]
    simp only [List.dropWhile_cons, hc, if_true]
    rw [ih (fun x hx => h x (List.mem_cons_of_mem c hx))]

/-- One well-formed marker at the head of the scan is replaced and the scan
resumes after it, without re-scanning the replacement. -/
theorem scanTemplate_marker (repl : String → String → String) (c0 : Char) (cs rest : List Char)
    (h : ∀ c ∈ c0 :: cs, c ≠ '}') :
    scanTemplate repl ('{' :: '{' :: ((c0 :: cs) ++ '}' :: '}' :: rest))
      = (repl (String.mk ('{' :: '{' :: ((c0 :: cs) ++ ['}', '}'])))
             (String.mk (c0 :: cs))).data
          ++ scanTemplate repl rest := by
  have h1 : ((c0 :: cs) ++ '}' :: '}' :: rest).takeWhile (fun c => c ≠ '}') = c0 :: cs :=
    takeWhile_marker (c0 :: cs) ('}' :: rest) h
  have h2 : ((c0 :: cs) ++ '}' :: '}' :: rest).dropWhile (fun c => c ≠ '}') = '}' :: '}' :: rest :=
    dropWhile_marker (c0 :: cs) ('}' :: rest) h
  simp only [scanTemplate]
  split
  · next ic it rest2 hi ha =>
      rw [h1] at hi
      rw [h2] at ha
      cases hi
      cases ha
      rfl
  · next hnomatch =>
      exact (hnomatch c0 cs rest h1 h2).elim

/-- An exhausted scan emits nothing. -/
theorem scanTemplate_nil (repl : String → String → String) : scanTemplate repl [] = [] := by
  simp [scanTemplate]

/-- Rebuilding a string from its characters is the identity. -/
theorem mk_data_append_nil (s : String) : String.mk (s.data ++ []) = s := by
  cases s
  simp

/-- A template consisting of one well-formed marker (a non-empty reference
with no closing brace between the double braces) is resolved by applying
the reference-replacement rule exactly once: the scan recognizes the
marker, substitutes it, and re-scans nothing. -/
theorem resolveTemplate_single_marker (ref : String)
    (context stepOutputs : List (String × Val))
    (h1 : ref.data ≠ []) (h2 : ∀ c ∈ ref.data, c ≠ '}') :
    resolveTemplate ("\x7b\x7b" ++ ref ++ "\x7d\x7d") context stepOutputs
      = templateRef context stepOutputs ("\x7b\x7b" ++ ref ++ "\x7d\x7d") ref := by
  have hd : ("\x7b\x7b" ++ ref ++ "\x7d\x7d" : String).data
      = '{' :: '{' :: (ref.data ++ '}' :: '}' :: ([] : List Char)) := by
    rw [String.data_append, String.data_append]
    rfl
  cases href : ref.data with
  | nil => exact absurd href h1
  | cons c0 cs =>
    unfold resolveTemplate
    rw [hd, href]
    rw [scanTemplate_marker _ c0 cs [] (href ▸ h2)]
    rw [scanTemplate_nil]
    have e1 : String.mk ('{' :: '{' :: ((c0 :: cs) ++ ['}', '}']))
        = ("\x7b\x7b" ++ ref ++ "\x7d\x7d" : String) := by
      rw [← href, ← hd]
    have e2 : String.mk (c0 :: cs) = ref := by
      rw [← href]
    rw [e1, e2]
    exact mk_data_append_nil (templateRef context stepOutputs
      ("\x7b\x7b" ++ ref ++ "\x7d\x7d") ref)

/-- C4 counterexample: the reference `context.a.b` is outside the claimed
two-segment grammar, yet `_resolve_template` does not leave it verbatim —
it substitutes the context value under `a` (the extra segment is ignored),
and it does not read the key `a.b` either. -/
theorem c4_counterexample :
    resolveTemplate ("\x7b\x7bcontext.a.b\x7d\x7d")
        [(("a"), Val.vStr ("x")), (("a.b"), Val.vStr ("y"))] [] = "x"
    ∧ ("x" : String) ≠ ("\x7b\x7bcontext.a.b\x7d\x7d")
    ∧ ("x" : String) ≠ ("y") := by
  refine ⟨?_, by decide, by decide⟩
  exact (resolveTemplate_single_marker ("context.a.b")
    [(("a"), Val.vStr ("x")), (("a.b"), Val.vStr ("y"))] []
    (by decide) (by decide)).trans rfl

/-- C4 amended: for every single-marker template the resolver substitutes
every reference whose dot-split starts with `context` followed by at least
one more segment (the context value of the second segment, extra segments
ignored, missing keys rendering as the empty string), and every reference
of at least three segments whose second segment is `output` and whose head
is not `context` (the third-segment field of that step's recorded output,
extra segments ignored); dict/list values are JSON-encoded, other values
stringified.  Only a reference matching neither pattern is left verbatim.
Substitution is a single pass: a marker inside a substituted value survives
un-resolved.  The spec's three round-trip examples are instances. -/
theorem c4_template_resolver :
    (∀ (ref key : String) (restParts : List String)
        (context stepOutputs : List (String × Val)),
        ref.data ≠ [] → (∀ c ∈ ref.data, c ≠ '}') →
        pySplitDot (pyStrip ref) = ("context") :: key :: restParts →
        resolveTemplate ("\x7b\x7b" ++ ref ++ "\x7d\x7d") context stepOutputs
          = renderTemplateVal ((dictGet context key).getD (Val.vStr (""))))
    ∧ (∀ (ref sid fld : String) (restParts : List String)
        (context stepOutputs : List (String × Val)),
        ref.data ≠ [] → (∀ c ∈ ref.data, c ≠ '}') →
        pySplitDot (pyStrip ref) = sid :: ("output") :: fld :: restParts →
        sid ≠ ("context") →
        resolveTemplate ("\x7b\x7b" ++ ref ++ "\x7d\x7d") context stepOutputs
          = renderTemplateVal
              ((valGet ((dictGet stepOutputs sid).getD (Val.vDict [])) fld).getD (Val.vStr (""))))
    ∧ (∀ (ref : String) (context stepOutputs : List (String × Val)),
        ref.data ≠ [] → (∀ c ∈ ref.data, c ≠ '}') →
        (∀ (key : String) (restParts : List String),
          pySplitDot (pyStrip ref) ≠ ("context") :: key :: restParts) →
        (∀ (sid fld : String) (restParts : List String),
          pySplitDot (pyStrip ref) ≠ sid :: ("output") :: fld :: restParts) →
        resolveTemplate ("\x7b\x7b" ++ ref ++ "\x7d\x7d") context stepOutputs
          = "\x7b\x7b" ++ ref ++ "\x7d\x7d")
    ∧ resolveTemplate ("\x7b\x7bcontext.topic\x7d\x7d") [(("topic"), Val.vStr ("x"))] [] = "x"
    ∧ resolveTemplate ("\x7b\x7bstep1.output.score\x7d\x7d") []
        [(("step1"), Val.vDict [(("score"), Val.vNum ("0.9"))])] = "0.9"
    ∧ (∀ (context stepOutputs : List (String × Val)),
        resolveTemplate ("\x7b\x7bunknown.thing\x7d\x7d") context stepOutputs
          = "\x7b\x7bunknown.thing\x7d\x7d")
    ∧ (∀ (v : Val) (stepOutputs : List (String × Val)),
        resolveTemplate ("\x7b\x7bcontext.topic\x7d\x7d") [(("topic"), v)] stepOutputs
          = renderTemplateVal v)
    ∧ (∀ (v : Val) (context : List (String × Val)),
        resolveTemplate ("\x7b\x7bstep1.output.score\x7d\x7d") context
          [(("step1"), Val.vDict [(("score"), v)])] = renderTemplateVal v)
    ∧ resolveTemplate ("\x7b\x7bcontext.a\x7d\x7d")
        [(("a"), Val.vStr ("\x7b\x7bcontext.b\x7d\x7d")), (("b"), Val.vStr ("x"))] []
        = "\x7b\x7bcontext.b\x7d\x7d" := by
  refine ⟨?_, ?_, ?_, ?_, ?_, ?_, ?_, ?_, ?_⟩
  · intro ref key restParts context stepOutputs h1 h2 hsplit
    rw [resolveTemplate_single_marker ref context stepOutputs h1 h2]
    unfold templateRef
    dsimp only
    rw [hsplit]
    rfl
  · intro ref sid fld restParts context stepOutputs h1 h2 hsplit hsid
    rw [resolveTemplate_single_marker ref context stepOutputs h1 h2]
    unfold templateRef
    dsimp only
    rw [hsplit]
    dsimp only
    rw [if_neg hsid]
    rfl
  · intro ref context stepOutputs h1 h2 hno1 hno2
    rw [resolveTemplate_single_marker ref context stepOutputs h1 h2]
    unfold templateRef
    dsimp only
    cases hp : pySplitDot (pyStrip ref) with
    | nil => rfl
    | cons p0 tail =>
      cases tail with
      | nil => rfl
      | cons p1 rest =>
        by_cases hc : p0 = ("context")
        · exact absurd (hc ▸ hp) (hno1 p1 rest)
        · dsimp only
          rw [if_neg hc]
          cases rest with
          | nil => rfl
          | cons p2 rest2 =>
            by_cases ho : p1 = ("output")
            · exact absurd (ho ▸ hp) (hno2 p0 p2 rest2)
            · dsimp only
              rw [if_neg ho]
  · exact (resolveTemplate_single_marker ("context.topic")
      [(("topic"), Val.vStr ("x"))] [] (by decide) (by decide)).trans rfl
  · exact (resolveTemplate_single_marker ("step1.output.score") []
      [(("step1"), Val.vDict [(("score"), Val.vNum ("0.9"))])]
      (by decide) (by decide)).trans rfl
  · intro context stepOutputs
    exact (resolveTemplate_single_marker ("unknown.thing") context stepOutputs
      (by decide) (by decide)).trans rfl
  · intro v stepOutputs
    exact (resolveTemplate_single_marker ("context.topic") [(("topic"), v)] stepOutputs
      (by decide) (by decide)).trans rfl
  · intro v context
    exact (resolveTemplate_single_marker ("step1.output.score") context
      [(("step1"), Val.vDict [(("score"), v)])] (by decide) (by decide)).trans rfl
  · exact (resolveTemplate_single_marker ("context.a")
      [(("a"), Val.vStr ("\x7b\x7bcontext.b\x7d\x7d")), (("b"), Val.vStr ("x"))] []
      (by decide) (by decide)).trans rfl

/-- C4 amended witness: the three general rules applied at concrete
references — a two-segment context reference, a four-segment
step-output reference whose extra segment is ignored, and an unmatched
reference left verbatim. -/
theorem c4_template_resolver_witness :
    resolveTemplate ("\x7b\x7b" ++ ("context.topic") ++ "\x7d\x7d")
        [(("topic"), Val.vStr ("x"))] [] = "x"
    ∧ resolveTemplate ("\x7b\x7b" ++ ("s1.output.f.g") ++ "\x7d\x7d") []
        [(("s1"), Val.vDict [(("f"), Val.vStr ("v"))])] = "v"
    ∧ resolveTemplate ("\x7b\x7b" ++ ("unknown.thing") ++ "\x7d\x7d") [] []
        = "\x7b\x7b" ++ ("unknown.thing") ++ "\x7d\x7d" := by
  refine ⟨?_, ?_, ?_⟩
  · exact (c4_template_resolver.1 ("context.topic") ("topic") []
      [(("topic"), Val.vStr ("x"))] [] (by decide) (by decide) rfl).trans rfl
  · exact (c4_template_resolver.2.1 ("s1.output.f.g") ("s1") ("f") [("g")] []
      [(("s1"), Val.vDict [(("f"), Val.vStr ("v"))])]
      (by decide) (by decide) rfl (by decide)).trans rfl
  · refine c4_template_resolver.2.2.1 ("unknown.thing") [] [] (by decide) (by decide) ?_ ?_
    · intro key restParts h
      rw [show pySplitDot (pyStrip ("unknown.thing")) = [("unknown"), ("thing")] from rfl] at h
      injection h with ha _
      exact absurd ha (by decide)
    · intro sid fld restParts h
      rw [show pySplitDot (pyStrip ("unknown.thing")) = [("unknown"), ("thing")] from rfl] at h
      injection h with _ hb
      injection hb with hb1 _
      exact absurd hb1 (by decide)

/-- C5: the condition evaluator checks the operators `>=, <=, !=, ==, >, <`
in that order, splits at the first occurrence of the first matching
operator, trims both sides, compares numerically when both sides parse as
floats and otherwise as quote-stripped strings, and returns false when no
operator occurs.  `2>=2` discriminates the operator order (splitting at `>`
first would compare `2` against `=2` as strings), `3<2<9` discriminates the
first-occurrence split (splitting at the last `<` would compare `3<2`
against `9` as strings, which holds), and `a > b` evaluates exactly as the
lexicographic string comparison. -/
theorem c5_condition_evaluator :
    (∀ expr : String, (∀ op ∈ condOps, findSubstr expr.data op.data = none) →
        evalCondition expr = false)
    ∧ evalCondition ("1.2 > 0.8") = true
    ∧ evalCondition ("done == done") = true
    ∧ evalCondition ("a > b") = false
    ∧ evalCondition ("a > b") = applyOpStr (">") ("a") ("b")
    ∧ evalCondition ("'abc' == abc") = true
    ∧ evalCondition ("2>=2") = true
    ∧ evalCondition ("3<2<9") = false := by
  refine ⟨?_, by decide, by decide, by decide, by decide, by decide, by decide, by decide⟩
  intro expr h
  have h1 := h (">=") (by decide)
  have h2 := h ("<=") (by decide)
  have h3 := h ("!=") (by decide)
  have h4 := h ("==") (by decide)
  have h5 := h (">") (by decide)
  have h6 := h ("<") (by decide)
  simp [evalCondition, condOps, evalCondAux, evalCondWithOp, h1, h2, h3, h4, h5, h6]

/-- C5 witness: an expression with none of the six operators evaluates to
false. -/
theorem c5_condition_evaluator_witness : evalCondition ("hello world") = false :=
  c5_condition_evaluator.1 ("hello world") (by decide)

/-- C1 counterexample: on a concrete two-step run in which both steps
succeed, the engine executes the second step with no persistence write
after the first — the trace is two executions followed by a single final
write, refuting per-step persistence as stated. -/
theorem c1_counterexample :
    persistedAfterEveryStep
        (executeRun stubCollab worldTransform2 ("wf1") ("r1") ("u1")).2 = false := by
  decide

/-- C1 amended: an execution pass of the run engine (`execute_run` or
`continue_run`) performs exactly one persistence write of the status and
full stepResults list, as the final event of the pass — after a failing
step, a pausing step, or the last step — and performs no write between
consecutive successful steps. -/
theorem c1_single_persist_per_pass :
    (∀ (collab : Collaborators) (w : World) (workflowId runId triggeredBy : String),
        (executeRun collab w workflowId runId triggeredBy).2 = []
        ∨ ∃ (ids : List String) (st : String) (n : Nat),
            (executeRun collab w workflowId runId triggeredBy).2
              = ids.map Event.stepExecuted ++ [Event.persistWrite st n])
    ∧ (∀ (collab : Collaborators) (w : World) (workflowId runId triggeredBy : String),
        (continueRun collab w workflowId runId triggeredBy).2 = []
        ∨ ∃ (ids : List String) (st : String) (n : Nat),
            (continueRun collab w workflowId runId triggeredBy).2
              = ids.map Event.stepExecuted ++ [Event.persistWrite st n]) := by
  constructor
  · intro collab w workflowId runId triggeredBy
    unfold executeRun
    cases hwf : wfGet w workflowId with
    | none => exact Or.inl rfl
    | some wf =>
      refine Or.inr ?_
      obtain ⟨k, st, _, htr⟩ := executeStepsFrom_trace collab workflowId runId
        (resolveContext wf.context triggeredBy (toString w.clock))
        (sortByOrder wf.steps) [] [] w []
      exact ⟨((sortByOrder wf.steps).take k).map (fun s => s.stepId), st, 0 + k,
        by rw [htr]; simp [List.map_map, Function.comp_def]⟩
  · intro collab w workflowId runId triggeredBy
    unfold continueRun
    cases hwf : wfGet w workflowId with
    | none => exact Or.inl rfl
    | some wf =>
      cases hr : runGet w workflowId runId with
      | none => exact Or.inl rfl
      | some run =>
        refine Or.inr ?_
        obtain ⟨k, st, _, htr⟩ := executeStepsFrom_trace collab workflowId runId
          (resolveContext wf.context triggeredBy (toString w.clock))
          (sortByOrder (wf.steps.filter (fun s => run.pendingStepOrder.getD 0 < s.order)))
          (successOutputs run.stepResults) run.stepResults w []
        exact ⟨((sortByOrder (wf.steps.filter
              (fun s => run.pendingStepOrder.getD 0 < s.order))).take k).map (fun s => s.stepId),
          st, run.stepResults.length + k, by rw [htr]; simp [List.map_map, Function.comp_def]⟩

/-- C9: resuming a run whose status is not `waiting_user_input` is rejected
with a client error (HTTP 4xx, specifically 400 when the run exists and the
caller owns the workflow) and the store is not written. -/
theorem c9_resume_rejects_unpaused
    (w : World) (workflowId runId requesterId : String) (answer : Val) (run : Run)
    (hrun : runGet w workflowId runId = some run)
    (hst : run.status ≠ "waiting_user_input") :
    (resumeRun w workflowId runId requesterId answer).1 = w
    ∧ ∃ err, (resumeRun w workflowId runId requesterId answer).2 = Except.error err
        ∧ 400 ≤ err.code ∧ err.code < 500 := by
  unfold resumeRun
  cases hwf : wfGet w workflowId with
  | none => exact ⟨rfl, ⟨_, rfl, by simp⟩⟩
  | some wf =>
    dsimp only
    by_cases hown : wf.authorId ≠ requesterId
    · rw [if_pos hown]
      exact ⟨rfl, ⟨_, rfl, by simp⟩⟩
    · rw [if_neg hown, hrun]
      dsimp only
      rw [if_pos hst]
      exact ⟨rfl, ⟨_, rfl, by simp⟩⟩

/-- C9 witness: resuming the fresh running run of `worldTransform2` changes
nothing and yields a 4xx error. -/
theorem c9_resume_rejects_unpaused_witness :
    (resumeRun worldTransform2 ("wf1") ("r1") ("u1") (Val.vStr ("a"))).1 = worldTransform2
    ∧ ∃ err, (resumeRun worldTransform2 ("wf1") ("r1") ("u1") (Val.vStr ("a"))).2
        = Except.error err ∧ 400 ≤ err.code ∧ err.code < 500 :=
  c9_resume_rejects_unpaused worldTransform2 ("wf1") ("r1") ("u1") (Val.vStr ("a"))
    { runId := "r1", workflowId := "wf1", triggeredBy := "u1", status := "running" }
    rfl (by decide)

/-- C10: triggering a run on an existing owned workflow with zero steps or
more than the configured maximum of 10 steps is rejected with HTTP 400 and
no run record is created; within bounds, exactly one fresh running run
record with empty stepResults is appended to the store. -/
theorem c10_trigger_step_bounds
    (w : World) (workflowId triggeredBy : String) (wf : Workflow)
    (hwf : wfGet w workflowId = some wf) (hown : wf.authorId = triggeredBy) :
    ((wf.steps.length = 0 ∨ orchestratorMaxSteps < wf.steps.length) →
        (triggerRun w workflowId triggeredBy).1 = w
        ∧ ∃ err, (triggerRun w workflowId triggeredBy).2 = Except.error err ∧ err.code = 400)
    ∧ (1 ≤ wf.steps.length → wf.steps.length ≤ orchestratorMaxSteps →
        ∃ run, (triggerRun w workflowId triggeredBy).2 = Except.ok run
          ∧ run.status = "running" ∧ run.stepResults = []
          ∧ (triggerRun w workflowId triggeredBy).1.runs
              = w.runs ++ [((workflowId, run.runId), run)]) := by
  unfold triggerRun
  rw [hwf]
  dsimp only
  have hne : ¬(wf.authorId ≠ triggeredBy) := fun hh => hh hown
  rw [if_neg hne]
  constructor
  · intro hbad
    cases hbad with
    | inl hzero =>
      have he : wf.steps.isEmpty = true := by
        rw [List.isEmpty_iff_length_eq_zero]
        exact hzero
      rw [if_pos he]
      exact ⟨rfl, ⟨_, rfl, rfl⟩⟩
    | inr hbig =>
      have he : ¬(wf.steps.isEmpty = true) := by
        rw [List.isEmpty_iff_length_eq_zero]
        omega
      rw [if_neg he, if_pos hbig]
      exact ⟨rfl, ⟨_, rfl, rfl⟩⟩
  · intro h1 h2
    have he : ¬(wf.steps.isEmpty = true) := by
      rw [List.isEmpty_iff_length_eq_zero]
      omega
    have hle : ¬(orchestratorMaxSteps < wf.steps.length) := by omega
    rw [if_neg he, if_neg hle]
    exact ⟨_, rfl, rfl, rfl, rfl⟩

/-- C10 witness: the zero-step workflow is rejected with 400 and nothing is
written; the two-step workflow yields a fresh running run appended to the
store. -/
theorem c10_trigger_step_bounds_witness :
    ((triggerRun worldNoSteps ("wfe") ("u1")).1 = worldNoSteps
      ∧ ∃ err, (triggerRun worldNoSteps ("wfe") ("u1")).2 = Except.error err ∧ err.code = 400)
    ∧ (∃ run, (triggerRun worldTransform2 ("wf1") ("u1")).2 = Except.ok run
        ∧ run.status = "running" ∧ run.stepResults = []
        ∧ (triggerRun worldTransform2 ("wf1") ("u1")).1.runs
            = worldTransform2.runs ++ [(("wf1", run.runId), run)]) := by
  constructor
  · exact (c10_trigger_step_bounds worldNoSteps ("wfe") ("u1")
      { id := "wfe", authorId := "u1", steps := [] } rfl rfl).1 (Or.inl rfl)
  · exact (c10_trigger_step_bounds worldTransform2 ("wf1") ("u1") wfTransform2 rfl rfl).2
      (by decide) (by decide)

/-- C6: when the next step's executor (or its external collaborator) raises,
the engine converts the fault into a failed StepResult instead of letting
the exception escape (the embedded engine is a total function), persists the
run as failed with `finishedAt` set and `stepResults` equal to the
accumulated earlier results plus the one failed result, and executes none of
the remaining steps (the pass's trace ends right after the failing step). -/
theorem c6_fault_becomes_failed_run
    (collab : Collaborators) (workflowId runId : String) (ctx : List (String × Val))
    (failStep : Step) (rest : List Step) (so : List (String × Val))
    (res : List StepResult) (w : World) (tr : List Event) (run : Run) (e : String)
    (hex : execSingleStep collab failStep ctx so = Except.error e)
    (hrun : runGet w workflowId runId = some run) :
    (executeStepsFrom collab workflowId runId ctx (failStep :: rest) so res w tr).2
      = tr ++ [Event.stepExecuted failStep.stepId,
               Event.persistWrite ("failed") (res.length + 1)]
    ∧ runGet (executeStepsFrom collab workflowId runId ctx (failStep :: rest) so res w tr).1
        workflowId runId
      = some { run with
               status := "failed",
               stepResults := res ++ [{ failedStepResult failStep e with latencyMs := some 0 }],
               finishedAt := some w.clock } := by
  have hred : executeStepsFrom collab workflowId runId ctx (failStep :: rest) so res w tr
      = (runUpdateStatus w workflowId runId ("failed")
           (some (res ++ [{ failedStepResult failStep e with latencyMs := some 0 }])) true
           Extra.noExtra,
         tr ++ [Event.stepExecuted failStep.stepId,
                Event.persistWrite ("failed") ((res ++ [{ failedStepResult failStep e with
                  latencyMs := some 0 }]).length)]) := by
    simp only [executeStepsFrom, hex, failedStepResult]
    simp [List.append_assoc]
  rw [hred]
  refine ⟨by simp, ?_⟩
  rw [runGet_update, hrun]
  rfl

/-- C6 witness: in the concrete three-step run whose second AGENT step's
Lambda call raises after the first step succeeded, the pass stops at the
second step and the run record ends failed with exactly the first success
and the one failed result. -/
theorem c6_fault_becomes_failed_run_witness :
    (runGet (executeRun failing2ndCollab worldTwoAgents ("wf6") ("r1") ("u1")).1
        ("wf6") ("r1")).map
      (fun r => (r.status, r.stepResults.map (fun sr => (sr.stepId, sr.status, sr.error)),
        r.finishedAt.isSome))
      = some (("failed"),
          [(("s1"), ("success"), (none : Option String)),
           (("s2"), ("failed"), some ("Agent error: boom"))], true) := by
  have h := c6_fault_becomes_failed_run failing2ndCollab ("wf6") ("r1") []
    { stepId := "s2", type := "AGENT", order := 2, agentId := some ("a2") }
    [{ stepId := "s3", type := "LOGIC", order := 3, logicType := some ("transform") }]
    [(("s1"), Val.vDict [(("r"), Val.vStr ("ok"))])]
    [{ stepId := "s1", type := "AGENT", status := "success",
       input := Val.vDict [], output := Val.vDict [(("r"), Val.vStr ("ok"))],
       error := none, latencyMs := some 0 }]
    worldTwoAgents [Event.stepExecuted ("s1")]
    { runId := "r1", workflowId := "wf6", triggeredBy := "u1", status := "running" }
    ("Agent error: boom") rfl rfl
  rw [show (executeRun failing2ndCollab worldTwoAgents ("wf6") ("r1") ("u1"))
      = executeStepsFrom failing2ndCollab ("wf6") ("r1") []
          ({ stepId := "s2", type := "AGENT", order := 2, agentId := some ("a2") } ::
            [{ stepId := "s3", type := "LOGIC", order := 3, logicType := some ("transform") }])
          [(("s1"), Val.vDict [(("r"), Val.vStr ("ok"))])]
          [{ stepId := "s1", type := "AGENT", status := "success",
             input := Val.vDict [], output := Val.vDict [(("r"), Val.vStr ("ok"))],
             error := none, latencyMs := some 0 }]
          worldTwoAgents [Event.stepExecuted ("s1")] from rfl]
  rw [h.2]
  rfl

/-- C7: a LOGIC step with logicType `user_input` always yields a
`waiting_user_input` StepResult carrying the configured question and output
field (defaulting to "Please provide input" and "answer"); the engine then
stores that result, sets the run to `waiting_user_input` with
`pendingStepId`/`pendingStepOrder` equal to the step's identifiers, and
executes none of the remaining steps. -/
theorem c7_user_input_pauses
    (collab : Collaborators) (workflowId runId : String) (ctx : List (String × Val))
    (step : Step) (rest : List Step) (so : List (String × Val))
    (res : List StepResult) (w : World) (tr : List Event) (run : Run)
    (htype : step.type = "LOGIC") (hlt : step.logicType = some ("user_input"))
    (hrun : runGet w workflowId runId = some run) :
    execLogic step ctx so
      = { stepId := step.stepId, type := "LOGIC", status := "waiting_user_input",
          pendingQuestion := some (pyOr step.question ("Please provide input")),
          outputField := some (pyOr step.outputField ("answer")),
          input := Val.vDict [], output := Val.vDict [], error := none }
    ∧ (executeStepsFrom collab workflowId runId ctx (step :: rest) so res w tr).2
        = tr ++ [Event.stepExecuted step.stepId,
                 Event.persistWrite ("waiting_user_input") (res.length + 1)]
    ∧ runGet (executeStepsFrom collab workflowId runId ctx (step :: rest) so res w tr).1
        workflowId runId
      = some { run with
               status := "waiting_user_input",
               stepResults := res ++ [{ execLogic step ctx so with latencyMs := some 0 }],
               pendingStepId := some step.stepId,
               pendingStepOrder := some step.order } := by
  have hlog : execLogic step ctx so
      = { stepId := step.stepId, type := "LOGIC", status := "waiting_user_input",
          pendingQuestion := some (pyOr step.question ("Please provide input")),
          outputField := some (pyOr step.outputField ("answer")),
          input := Val.vDict [], output := Val.vDict [], error := none } := by
    unfold execLogic
    rw [hlt]
    rfl
  have hex : execSingleStep collab step ctx so = Except.ok (execLogic step ctx so) := by
    unfold execSingleStep
    rw [htype]
    rfl
  have hred : executeStepsFrom collab workflowId runId ctx (step :: rest) so res w tr
      = (runUpdateStatus w workflowId runId ("waiting_user_input")
           (some (res ++ [{ execLogic step ctx so with latencyMs := some 0 }])) false
           (Extra.pending step.stepId step.order),
         tr ++ [Event.stepExecuted step.stepId,
                Event.persistWrite ("waiting_user_input")
                  ((res ++ [{ execLogic step ctx so with latencyMs := some 0 }]).length)]) := by
    rw [show executeStepsFrom collab workflowId runId ctx (step :: rest) so res w tr
        = executeStepsFrom collab workflowId runId ctx (step :: rest) so res w tr from rfl]
    simp only [executeStepsFrom, hex, hlog]
    simp [List.append_assoc]
  refine ⟨hlog, ?_, ?_⟩
  · rw [hred]
    simp
  · rw [hred]
    dsimp only
    rw [runGet_update, hrun]
    rw [hlog]
    rfl

/-- C7 witness: a concrete `user_input` step pauses the `worldTransform2`
run right there, persisting the pause bookkeeping, with no further step
executed. -/
theorem c7_user_input_pauses_witness :
    (executeStepsFrom stubCollab ("wf1") ("r1") []
        ({ stepId := "s2", type := "LOGIC", order := 2, logicType := some ("user_input"),
           outputField := some ("approved") } ::
          [{ stepId := "s3", type := "LOGIC", order := 3, logicType := some ("transform") }])
        [] [] worldTransform2 []).2
      = [Event.stepExecuted ("s2"), Event.persistWrite ("waiting_user_input") 1]
    ∧ runGet (executeStepsFrom stubCollab ("wf1") ("r1") []
        ({ stepId := "s2", type := "LOGIC", order := 2, logicType := some ("user_input"),
           outputField := some ("approved") } ::
          [{ stepId := "s3", type := "LOGIC", order := 3, logicType := some ("transform") }])
        [] [] worldTransform2 []).1 ("wf1") ("r1")
      = some { runId := "r1", workflowId := "wf1", triggeredBy := "u1",
               status := "waiting_user_input",
               stepResults := [{ execLogic
                 { stepId := "s2", type := "LOGIC", order := 2,
                   logicType := some ("user_input"), outputField := some ("approved") } [] []
                 with latencyMs := some 0 }],
               pendingStepId := some ("s2"), pendingStepOrder := some 2 } := by
  have h := c7_user_input_pauses stubCollab ("wf1") ("r1") []
    { stepId := "s2", type := "LOGIC", order := 2, logicType := some ("user_input"),
      outputField := some ("approved") }
    [{ stepId := "s3", type := "LOGIC", order := 3, logicType := some ("transform") }]
    [] [] worldTransform2 []
    { runId := "r1", workflowId := "wf1", triggeredBy := "u1", status := "running" }
    rfl rfl rfl
  exact ⟨h.2.1, h.2.2⟩

/-- Folding the per-field resolution over a schema containing `f` (with
distinct field names) leaves under `f.fieldName` exactly the value of the
first applicable rule, provided the name was unbound in the accumulator. -/
theorem agentInput_fold_mem (step : Step) (ctx so : List (String × Val)) (f : SchemaField) :
    ∀ (fields : List SchemaField) (d : List (String × Val)),
      f ∈ fields →
      (fields.map (fun g => g.fieldName)).Nodup →
      dictGet d f.fieldName = none →
      dictGet (fields.foldl (resolveAgentField step ctx so) d) f.fieldName
        = (match (step.inputMapping.find? (fun kv => kv.1 = f.fieldName)).map (fun kv => kv.2) with
           | some tpl =>
             some (if tpl = "\x7b\x7bdefault\x7d\x7d" then f.default.getD Val.vNull
                   else Val.vStr (resolveTemplate tpl ctx so))
           | none =>
             match (step.missingFieldsResolution.find? (fun kv => kv.1 = f.fieldName)).map
                 (fun kv => kv.2) with
             | some res => some (Val.vStr (resolveTemplate res.value ctx so))
             | none => f.default) := by
  intro fields
  induction fields with
  | nil => intro d hmem _ _; exact absurd hmem (List.not_mem_nil f)
  | cons g rest ih =>
    intro d hmem hnodup hd
    have hnd : g.fieldName ∉ rest.map (fun g => g.fieldName) ∧
        (rest.map (fun g => g.fieldName)).Nodup := by simpa using hnodup
    rw [List.foldl_cons]
    cases List.mem_cons.mp hmem with
    | inl heq =>
      subst heq
      rw [agentInput_fold_other step ctx so f.fieldName rest _ ?_]
      · exact resolveAgentField_self step ctx so d f hd
      · intro g' hg' hname
        exact hnd.1 (hname ▸ List.mem_map_of_mem (fun g => g.fieldName) hg')
    | inr hrest =>
      have hne : g.fieldName ≠ f.fieldName := by
        intro hh
        exact hnd.1 (hh ▸ List.mem_map_of_mem (fun g => g.fieldName) hrest)
      refine ih _ hrest hnd.2 ?_
      rw [resolveAgentField_other step ctx so d g f.fieldName hne]
      exact hd

/-- C8: each declared input field of the target agent is resolved by the
first applicable of: (1) its `inputMapping` template, where the literal
sentinel requests the schema-declared default instead of substitution,
(2) its `missingFieldsResolution` entry resolved as a template, (3) its
schema-declared default; when none applies the field is silently absent
from the payload. -/
theorem c8_agent_input_priority (step : Step) (agent : Agent)
    (ctx so : List (String × Val)) (f : SchemaField)
    (hmem : f ∈ agent.inputSchema)
    (hnodup : (agent.inputSchema.map (fun g => g.fieldName)).Nodup) :
    dictGet (resolveAgentInput step agent ctx so) f.fieldName
      = (match (step.inputMapping.find? (fun kv => kv.1 = f.fieldName)).map (fun kv => kv.2) with
         | some tpl =>
           some (if tpl = "\x7b\x7bdefault\x7d\x7d" then f.default.getD Val.vNull
                 else Val.vStr (resolveTemplate tpl ctx so))
         | none =>
           match (step.missingFieldsResolution.find? (fun kv => kv.1 = f.fieldName)).map
               (fun kv => kv.2) with
           | some res => some (Val.vStr (resolveTemplate res.value ctx so))
           | none => f.default)
    ∧ (step.inputMapping.find? (fun kv => kv.1 = f.fieldName) = none →
       step.missingFieldsResolution.find? (fun kv => kv.1 = f.fieldName) = none →
       f.default = none →
       dictGet (resolveAgentInput step agent ctx so) f.fieldName = none) := by
  have hmain := agentInput_fold_mem step ctx so f agent.inputSchema [] hmem hnodup rfl
  refine ⟨hmain, ?_⟩
  intro h1 h2 h3
  rw [show resolveAgentInput step agent ctx so
      = agent.inputSchema.foldl (resolveAgentField step ctx so) [] from rfl]
  rw [hmain, h1, h2]
  simp [h3]

/-- C8 witness: the single required field `x` of `agentReqX` — unmapped,
unresolved and defaultless in `stepBare` — is silently omitted from the
payload. -/
theorem c8_agent_input_priority_witness :
    dictGet (resolveAgentInput stepBare agentReqX [] []) ("x") = none :=
  (c8_agent_input_priority stepBare agentReqX [] [] { fieldName := "x" }
      (by simp [agentReqX]) (by simp [agentReqX])).2 rfl rfl rfl

/-- Inserting into a sorted-insert accumulator grows it by one. -/
theorem length_insertStr (x : String) (l : List String) :
    (insertStr x l).length = l.length + 1 := by
  induction l with
  | nil => rfl
  | cons t ts ih =>
    unfold insertStr
    by_cases h : lexCmp t.data x.data = Ordering.lt
    · simp [h, ih]
    · simp [h]

/-- The string sort is length-preserving. -/
theorem length_sortStrings (l : List String) : (sortStrings l).length = l.length := by
  induction l with
  | nil => rfl
  | cons t ts ih =>
    unfold sortStrings at ih ⊢
    rw [List.foldr_cons, length_insertStr, ih]
    rfl

/-- A `context.`-prefixed suggestion is never the `fixed_value` fallback. -/
theorem context_suggestion_ne_fixed (k : String) : ("context." ++ k) ≠ ("fixed_value") := by
  intro h
  have hd := congrArg String.data h
  rw [String.data_append] at hd
  simp at hd

/-- C3 counterexample: with the three context keys `a`, `b`, `c`, the issue
emitted for the unresolvable required field `x` carries only the three
context suggestions — the `fixed_value` fallback entry is truncated away by
`suggestions[:3]`, refuting the claim that the list always contains it. -/
theorem c3_counterexample :
    (validateAgentStep agentDirReqX stepBare ("sv") [("a"), ("b"), ("c")] [] []).1
      = [{ stepId := "sv", field := "x",
           issue := "Required field cannot be resolved from upstream",
           suggestions := [("context.a"), ("context.b"), ("context.c")] }]
    ∧ ∀ issue ∈ (validateAgentStep agentDirReqX stepBare ("sv") [("a"), ("b"), ("c")] [] []).1,
        ("fixed_value") ∉ issue.suggestions := by
  constructor
  · decide
  · decide

/-- C3 amended: for every unsatisfiable required defaultless input field of
an AGENT step, the emitted issue's suggestions are the first three entries
of the sorted `context.<key>` suggestions followed by the `fixed_value`
fallback; consequently the `fixed_value` entry is present exactly when
there are at most two context keys. -/
theorem c3_suggestion_truncation
    (agentDir : String → String → Option Agent) (step : Step) (stepId : String)
    (contextKeys availableFields : List String) (issues : List Issue)
    (agent : Agent) (f : SchemaField)
    (hdir : agentDir (step.agentId.getD ("")) (step.agentVersion.getD ("1.0.0")) = some agent)
    (hmem : f ∈ agent.inputSchema) (hreq : f.required = true) (hdef : f.default = none)
    (hnm : step.inputMapping.find? (fun kv => kv.1 = f.fieldName) = none)
    (hnr : step.missingFieldsResolution.find? (fun kv => kv.1 = f.fieldName) = none)
    (hna : availableFields.contains f.fieldName = false) :
    ({ stepId := stepId, field := f.fieldName,
       issue := "Required field cannot be resolved from upstream",
       suggestions := buildSuggestions contextKeys } : Issue)
      ∈ (validateAgentStep agentDir step stepId contextKeys availableFields issues).1
    ∧ (("fixed_value") ∈ buildSuggestions contextKeys ↔ contextKeys.length ≤ 2) := by
  constructor
  · have hissue : fieldIssue step stepId contextKeys availableFields f
        = some { stepId := stepId, field := f.fieldName,
                 issue := "Required field cannot be resolved from upstream",
                 suggestions := buildSuggestions contextKeys } := by
      unfold fieldIssue
      rw [if_neg (by rw [hreq]; exact fun hh => absurd hh (by decide)),
        if_neg (by rw [hdef]; exact fun hh => absurd hh (by decide)),
        if_neg (by rw [hnm]; exact fun hh => absurd hh (by decide)),
        if_neg (by rw [hnr]; exact fun hh => absurd hh (by decide)),
        if_neg (by rw [hna]; exact fun hh => absurd hh (by decide))]
    unfold validateAgentStep
    dsimp only
    rw [hdir]
    refine List.mem_append_right issues ?_
    exact List.mem_filterMap.mpr ⟨f, hmem, hissue⟩
  · unfold buildSuggestions
    constructor
    · intro hfv
      by_contra hgt
      have h3 : 3 ≤ ((sortStrings contextKeys).map (fun k => "context." ++ k)).length := by
        rw [List.length_map, length_sortStrings]
        omega
      rw [List.take_append_of_le_length h3] at hfv
      have hmem' := List.mem_of_mem_take hfv
      obtain ⟨k, _, hk⟩ := List.mem_map.mp hmem'
      exact context_suggestion_ne_fixed k hk
    · intro hle
      have hlen : (((sortStrings contextKeys).map (fun k => "context." ++ k))
          ++ [("fixed_value")]).length ≤ 3 := by
        rw [List.length_append, List.length_map, length_sortStrings]
        simp
        omega
      rw [List.take_of_length_le hlen]
      exact List.mem_append_right _ (List.mem_singleton.mpr rfl)

/-- C3 amended witness: the concrete three-key instance emits the truncated
suggestion list, and with keys `a`, `b` the fallback survives. -/
theorem c3_suggestion_truncation_witness :
    (({ stepId := "sv", field := "x",
        issue := "Required field cannot be resolved from upstream",
        suggestions := buildSuggestions [("a"), ("b"), ("c")] } : Issue)
      ∈ (validateAgentStep agentDirReqX stepBare ("sv") [("a"), ("b"), ("c")] [] []).1
      ∧ (("fixed_value") ∈ buildSuggestions [("a"), ("b"), ("c")] ↔
          ([("a"), ("b"), ("c")] : List String).length ≤ 2))
    ∧ (("fixed_value") ∈ buildSuggestions [("a"), ("b")] ↔
        ([("a"), ("b")] : List String).length ≤ 2) := by
  constructor
  · exact c3_suggestion_truncation agentDirReqX stepBare ("sv") [("a"), ("b"), ("c")] [] []
      agentReqX { fieldName := "x" } rfl (by simp [agentReqX]) rfl rfl rfl rfl rfl
  · exact (c3_suggestion_truncation agentDirReqX stepBare ("sv") [("a"), ("b")] [] []
      agentReqX { fieldName := "x" } rfl (by simp [agentReqX]) rfl rfl rfl rfl rfl).2

/-- The resume rewrite changes no step ids. -/
theorem injectAnswer_map_stepId (pid : String) (ans : Val) (l : List StepResult) :
    (injectAnswer pid ans l).map (fun sr => sr.stepId) = l.map (fun sr => sr.stepId) := by
  induction l with
  | nil => rfl
  | cons sr rest ih =>
    unfold injectAnswer
    by_cases h : sr.stepId = pid
    · simp [h]
    · simp [h, ih]

/-- C2: resuming a paused run with an answer rewrites, in place, the
StepResult whose stepId is the run's pendingStepId to a success holding the
one-entry answer map under the configured (or default `answer`) output
field with the pending question cleared; the run flips to `running` with
both pause bookkeeping fields retained; and the continuation pass runs the
engine loop with the step-outputs map rebuilt from exactly the
currently-successful StepResults, over exactly the workflow steps whose
order exceeds `pendingStepOrder`, in ascending order (its trace executes a
prefix of that sorted filtered list). -/
theorem c2_resume_and_continue
    (w : World) (workflowId runId requesterId : String) (answer : Val)
    (wf : Workflow) (run : Run)
    (hwf : wfGet w workflowId = some wf) (hown : wf.authorId = requesterId)
    (hrun : runGet w workflowId runId = some run)
    (hst : run.status = "waiting_user_input")
    (hnodup : (run.stepResults.map (fun sr => sr.stepId)).Nodup) :
    ∃ run',
      (resumeRun w workflowId runId requesterId answer).2 = Except.ok (some run')
      ∧ run'.status = "running"
      ∧ run'.pendingStepId = run.pendingStepId
      ∧ run'.pendingStepOrder = run.pendingStepOrder
      ∧ run'.stepResults
          = specRewriteResults run.stepResults (run.pendingStepId.getD ("")) answer
      ∧ successOutputs run'.stepResults
          = run'.stepResults.filterMap
              (fun sr => if sr.status = "success" then some (sr.stepId, sr.output) else none)
      ∧ (∀ collab,
          continueRun collab (resumeRun w workflowId runId requesterId answer).1
              workflowId runId requesterId
            = executeStepsFrom collab workflowId runId
                (resolveContext wf.context requesterId
                  (toString (resumeRun w workflowId runId requesterId answer).1.clock))
                (sortByOrder (wf.steps.filter
                  (fun s => run.pendingStepOrder.getD 0 < s.order)))
                (successOutputs run'.stepResults) run'.stepResults
                (resumeRun w workflowId runId requesterId answer).1 [])
      ∧ (∀ collab, ∃ k st n,
          (continueRun collab (resumeRun w workflowId runId requesterId answer).1
              workflowId runId requesterId).2
            = ((sortByOrder (wf.steps.filter
                  (fun s => run.pendingStepOrder.getD 0 < s.order))).take k).map
                (fun s => Event.stepExecuted s.stepId)
              ++ [Event.persistWrite st n])
      ∧ (sortByOrder (wf.steps.filter
            (fun s => run.pendingStepOrder.getD 0 < s.order))).Sorted stepLE
      ∧ List.Perm
          (sortByOrder (wf.steps.filter (fun s => run.pendingStepOrder.getD 0 < s.order)))
          (wf.steps.filter (fun s => run.pendingStepOrder.getD 0 < s.order)) := by
  have hres : resumeRun w workflowId runId requesterId answer
      = (runUpdateStatus w workflowId runId ("running")
           (some (injectAnswer (run.pendingStepId.getD ("")) answer run.stepResults)) false
           Extra.noExtra,
         Except.ok (runGet (runUpdateStatus w workflowId runId ("running")
           (some (injectAnswer (run.pendingStepId.getD ("")) answer run.stepResults)) false
           Extra.noExtra) workflowId runId)) := by
    unfold resumeRun
    rw [hwf]
    dsimp only
    rw [if_neg (show ¬(wf.authorId ≠ requesterId) from fun hh => hh hown)]
    rw [hrun]
    dsimp only
    rw [if_neg (show ¬(run.status ≠ "waiting_user_input") from fun hh => hh hst)]
  refine ⟨{ run with status := "running", stepResults := injectAnswer (run.pendingStepId.getD ("")) answer run.stepResults }, ?_, rfl, rfl, rfl, ?_, ?_, ?_, ?_, List.sorted_insertionSort stepLE _, List.perm_insertionSort stepLE _⟩
  · rw [hres]
    dsimp only
    rw [runGet_update, hrun]
    rfl
  · exact injectAnswer_eq_spec _ _ _
  · dsimp only
    unfold successOutputs
    rw [successOutputs_fold _ [] (fun sr _ => rfl) ?_]
    · rw [List.nil_append]
    · rw [injectAnswer_map_stepId]
      exact hnodup
  · intro collab
    rw [hres]
    dsimp only
    unfold continueRun
    rw [wfGet_update, hwf]
    dsimp only
    rw [runGet_update, hrun]
    rfl
  · intro collab
    rw [hres]
    dsimp only
    have hcont : continueRun collab (runUpdateStatus w workflowId runId ("running")
        (some (injectAnswer (run.pendingStepId.getD ("")) answer run.stepResults)) false
        Extra.noExtra) workflowId runId requesterId
        = executeStepsFrom collab workflowId runId
            (resolveContext wf.context requesterId
              (toString (runUpdateStatus w workflowId runId ("running")
                (some (injectAnswer (run.pendingStepId.getD ("")) answer run.stepResults)) false
                Extra.noExtra).clock))
            (sortByOrder (wf.steps.filter
              (fun s => run.pendingStepOrder.getD 0 < s.order)))
            (successOutputs (injectAnswer (run.pendingStepId.getD ("")) answer run.stepResults))
            (injectAnswer (run.pendingStepId.getD ("")) answer run.stepResults)
            (runUpdateStatus w workflowId runId ("running")
              (some (injectAnswer (run.pendingStepId.getD ("")) answer run.stepResults)) false
              Extra.noExtra) [] := by
      unfold continueRun
      rw [wfGet_update, hwf]
      dsimp only
      rw [runGet_update, hrun]
      rfl
    rw [hcont]
    obtain ⟨k, st, _, htr⟩ := executeStepsFrom_trace collab workflowId runId
      (resolveContext wf.context requesterId
        (toString (runUpdateStatus w workflowId runId ("running")
          (some (injectAnswer (run.pendingStepId.getD ("")) answer run.stepResults)) false
          Extra.noExtra).clock))
      (sortByOrder (wf.steps.filter (fun s => run.pendingStepOrder.getD 0 < s.order)))
      (successOutputs (injectAnswer (run.pendingStepId.getD ("")) answer run.stepResults))
      (injectAnswer (run.pendingStepId.getD ("")) answer run.stepResults)
      (runUpdateStatus w workflowId runId ("running")
        (some (injectAnswer (run.pendingStepId.getD ("")) answer run.stepResults)) false
        Extra.noExtra) []
    exact ⟨k, st,
      (injectAnswer (run.pendingStepId.getD ("")) answer run.stepResults).length + k,
      by rw [htr]; simp⟩

/-- C2 witness: resuming the concrete paused run of `worldPaused` with the
answer `yes` rewrites step `s2` in place, flips the run to running with the
pause fields retained, and the continuation pass runs exactly the steps
after order 2. -/
theorem c2_resume_and_continue_witness :
    ∃ run',
      (resumeRun worldPaused ("wf7") ("r1") ("u1") (Val.vStr ("yes"))).2 = Except.ok (some run')
      ∧ run'.status = "running"
      ∧ run'.pendingStepId = some ("s2")
      ∧ run'.pendingStepOrder = some 2
      ∧ run'.stepResults
          = specRewriteResults ({ runId := "r1", workflowId := "wf7", triggeredBy := "u1", status := "waiting_user_input", stepResults := [{ stepId := "s1", type := "AGENT", status := "success", output := Val.vDict [(("r"), Val.vStr ("ok"))], latencyMs := some 0 }, { stepId := "s2", type := "LOGIC", status := "waiting_user_input", pendingQuestion := some ("Please provide input"), outputField := some ("approved"), latencyMs := some 0 }], pendingStepId := some ("s2"), pendingStepOrder := some 2 } : Run).stepResults ("s2") (Val.vStr ("yes"))
      ∧ successOutputs run'.stepResults
          = run'.stepResults.filterMap
              (fun sr => if sr.status = "success" then some (sr.stepId, sr.output) else none)
      ∧ (∀ collab,
          continueRun collab (resumeRun worldPaused ("wf7") ("r1") ("u1") (Val.vStr ("yes"))).1
              ("wf7") ("r1") ("u1")
            = executeStepsFrom collab ("wf7") ("r1")
                (resolveContext wfPause.context ("u1")
                  (toString (resumeRun worldPaused ("wf7") ("r1") ("u1")
                    (Val.vStr ("yes"))).1.clock))
                (sortByOrder (wfPause.steps.filter (fun s => (2 : Int) < s.order)))
                (successOutputs run'.stepResults) run'.stepResults
                (resumeRun worldPaused ("wf7") ("r1") ("u1") (Val.vStr ("yes"))).1 [])
      ∧ (∀ collab, ∃ k st n,
          (continueRun collab (resumeRun worldPaused ("wf7") ("r1") ("u1")
              (Val.vStr ("yes"))).1 ("wf7") ("r1") ("u1")).2
            = ((sortByOrder (wfPause.steps.filter (fun s => (2 : Int) < s.order))).take k).map
                (fun s => Event.stepExecuted s.stepId)
              ++ [Event.persistWrite st n])
      ∧ (sortByOrder (wfPause.steps.filter (fun s => (2 : Int) < s.order))).Sorted stepLE
      ∧ List.Perm (sortByOrder (wfPause.steps.filter (fun s => (2 : Int) < s.order)))
          (wfPause.steps.filter (fun s => (2 : Int) < s.order)) :=
  c2_resume_and_continue worldPaused ("wf7") ("r1") ("u1") (Val.vStr ("yes")) wfPause
    ({ runId := "r1", workflowId := "wf7", triggeredBy := "u1", status := "waiting_user_input", stepResults := [{ stepId := "s1", type := "AGENT", status := "success", output := Val.vDict [(("r"), Val.vStr ("ok"))], latencyMs := some 0 }, { stepId := "s2", type := "LOGIC", status := "waiting_user_input", pendingQuestion := some ("Please provide input"), outputField := some ("approved"), latencyMs := some 0 }], pendingStepId := some ("s2"), pendingStepOrder := some 2 })
    rfl rfl rfl rfl (by decide)

end AM
